import Mathlib

/-!
Verification development for the brwsr pane/workspace engine.

The definitions below are a shallow embedding of the TypeScript sources:
  - src/electron/pane/utils.ts (layout, setLeafBounds, findParent, replaceChild,
    replaceNode, containsNode, findSplitForResize, nudgeSplitSize, PANE_GUTTER)
  - src/electron/storage/paneState.ts (SerializedNode, serializeNode)
  - src/electron/window/index.ts (Window.split, Window.close, Window.focus,
    Window.getAll, Window.getNeighbor, Window.restoreNode, key dispatch)
JavaScript numbers on the layout path are integers for pixel coordinates and
rationals for split ratios, so pixel arithmetic is modelled with Int and ratio
arithmetic with Rat; Math.floor is Int.floor.  Mutation of the shared object
graph is modelled by state passing: functions return the updated tree or
window state instead of mutating it in place.
-/

namespace Brwsr

/-- PANE_GUTTER from src/electron/pane/utils.ts. -/
def PANE_GUTTER : Int := 1

/-- Rect from src/electron/pane/types.ts: pixel-space, viewport-relative. -/
structure Rect where
  x : Int
  y : Int
  width : Int
  height : Int
deriving DecidableEq, Repr

/-- The two split directions of a Split node. -/
inductive Dir
  | vertical
  | horizontal
deriving DecidableEq, Repr

/-- The four screen directions used by resize / neighbor navigation. -/
inductive Side
  | left
  | right
  | up
  | down
deriving DecidableEq, Repr

/-- The data fields of a Leaf (src/electron/pane/types.ts) with the live
surface handles (view, layers, html) stripped: id, url and the optional
metadata fields.  A TypeScript optional string field is an Option String
(undefined = none). -/
structure LeafData where
  id : Nat
  url : String
  title : Option String
  favicon : Option String
  description : Option String
  backgroundColor : Option String
  textColor : Option String
  image : Option String
deriving DecidableEq, Repr

/-- Node = Leaf | Split from src/electron/pane/types.ts. -/
inductive Node
  | leaf (data : LeafData)
  | split (dir : Dir) (size : Rat) (a b : Node)
deriving DecidableEq, Repr

/-- PaneState from src/electron/pane/types.ts, as filled in by layout:
every optional field is rendered with the ?? "" default. -/
structure PaneState where
  id : Nat
  url : String
  title : String
  rect : Rect
  favicon : String
  backgroundColor : String
  textColor : String
  description : String
  image : String
deriving DecidableEq, Repr

/-- The sub-rectangles a Split assigns to its two children, exactly the
arithmetic of the split case of layout (src/electron/pane/utils.ts):
floor(available extent * size) for child a, the remainder for child b,
with one PANE_GUTTER reserved between them. -/
def splitChildRects (dir : Dir) (size : Rat) (rect : Rect) : Rect × Rect :=
  match dir with
  | Dir.vertical =>
      let availableWidth := rect.width - PANE_GUTTER
      let wA : Int := ⌊(availableWidth : Rat) * size⌋
      let wB := availableWidth - wA
      (⟨rect.x, rect.y, wA, rect.height⟩,
       ⟨rect.x + wA + PANE_GUTTER, rect.y, wB, rect.height⟩)
  | Dir.horizontal =>
      let availableHeight := rect.height - PANE_GUTTER
      let hA : Int := ⌊(availableHeight : Rat) * size⌋
      let hB := availableHeight - hA
      (⟨rect.x, rect.y, rect.width, hA⟩,
       ⟨rect.x, rect.y + hA + PANE_GUTTER, rect.width, hB⟩)

/-- layout from src/electron/pane/utils.ts.  The source pushes PaneStates
onto an out parameter in recursion order; the pure version returns the
list.  (setLeafBounds, a side effect on the live surfaces, is modelled
separately as leafViewBounds.) -/
def layout : Node → Rect → List PaneState
  | Node.leaf d, rect =>
      [⟨d.id, d.url, d.title.getD "", rect, d.favicon.getD "",
        d.backgroundColor.getD "", d.textColor.getD "",
        d.description.getD "", d.image.getD ""⟩]
  | Node.split dir size a b, rect =>
      let rects := splitChildRects dir size rect
      layout a rects.1 ++ layout b rects.2

/-- setLeafBounds from src/electron/pane/utils.ts: the bounds actually given
to the leaf's two surfaces, inset by PANE_GUTTER on each edge that is not at
the window content boundary (w, h = window content size). -/
def leafViewBounds (w h : Int) (rect : Rect) : Rect :=
  let leftG := if rect.x > 0 then PANE_GUTTER else 0
  let rightG := if rect.x + rect.width < w then PANE_GUTTER else 0
  let topG := if rect.y > 0 then PANE_GUTTER else 0
  let bottomG := if rect.y + rect.height < h then PANE_GUTTER else 0
  ⟨rect.x + leftG, rect.y + topG,
   max 0 (rect.width - (leftG + rightG)),
   max 0 (rect.height - (topG + bottomG))⟩

/-- containsNode from src/electron/pane/utils.ts. -/
def containsNode : Node → Nat → Bool
  | Node.leaf d, id => d.id == id
  | Node.split _ _ a b, id => containsNode a id || containsNode b id

/-- findParent from src/electron/pane/utils.ts: pre-order search for the
Split whose child is the leaf with childId; none when that leaf is the
root or absent. -/
def findParent : Node → Nat → Option Node → Option Node
  | Node.leaf d, childId, parent => if d.id == childId then parent else none
  | Node.split dir sz a b, childId, _ =>
      (findParent a childId (some (Node.split dir sz a b))) <|>
      (findParent b childId (some (Node.split dir sz a b)))

/-- replaceNode from src/electron/pane/utils.ts: drop the leaf with
targetId, collapsing a Split whose side became empty into the surviving
child; none when the whole tree is removed.  (The source's unreachable
corner where both recursive results are null - possible only when every
leaf carries targetId - would build a Split with null children; it is
modelled as none.) -/
def replaceNode : Node → Nat → Option Node
  | Node.leaf d, targetId => if d.id == targetId then none else some (Node.leaf d)
  | Node.split dir sz a b, targetId =>
      match replaceNode a targetId, replaceNode b targetId with
      | none, some b2 => some b2
      | some a2, none => some a2
      | some a2, some b2 => some (Node.split dir sz a2 b2)
      | none, none => none

/-- findSplitForResize from src/electron/pane/utils.ts, returning the found
split's size together with isInA (the split object itself is mutated in the
source; resizeAux below carries out that mutation functionally). -/
def findSplitForResize : Node → Nat → Dir → Option (Rat × Bool)
  | Node.leaf _, _, _ => none
  | Node.split dir sz a b, targetId, axis =>
      let inA := containsNode a targetId
      let inB := !inA && containsNode b targetId
      if !inA && !inB then none
      else
        -- child := if inA then a else b, recursed into; the branch is
        -- unfolded so the recursion is structural
        if inA then
          match findSplitForResize a targetId axis with
          | some r => some r
          | none => if dir = axis then some (sz, inA) else none
        else
          match findSplitForResize b targetId axis with
          | some r => some r
          | none => if dir = axis then some (sz, inA) else none

/-- The functional counterpart of the split.size mutation in nudgeSplitSize
(src/electron/pane/utils.ts): walk exactly as findSplitForResize does and,
at the found split, replace size by max(0.05, min(0.95, size ± delta)),
with + delta when the target lies in child a and - delta otherwise.
Returns none when no matching-axis split exists on the path. -/
def resizeAux : Node → Nat → Dir → Rat → Option Node
  | Node.leaf _, _, _, _ => none
  | Node.split dir sz a b, targetId, axis, delta =>
      let inA := containsNode a targetId
      let inB := !inA && containsNode b targetId
      if !inA && !inB then none
      else if inA then
        match resizeAux a targetId axis delta with
        | some a2 => some (Node.split dir sz a2 b)
        | none =>
            if dir = axis then
              some (Node.split dir (max (mkRat 1 20) (min (mkRat 19 20) (sz + delta))) a b)
            else none
      else
        match resizeAux b targetId axis delta with
        | some b2 => some (Node.split dir sz a b2)
        | none =>
            if dir = axis then
              some (Node.split dir (max (mkRat 1 20) (min (mkRat 19 20) (sz - delta))) a b)
            else none

/-- The axis a resize direction acts on (nudgeSplitSize). -/
def axisOf (direction : Side) : Dir :=
  if direction = Side.left || direction = Side.right then Dir.vertical
  else Dir.horizontal

/-- The delta of nudgeSplitSize: -step for left / up, +step for right /
down. -/
def resizeDelta (direction : Side) (step : Rat) : Rat :=
  match axisOf direction with
  | Dir.vertical => if direction = Side.left then -step else step
  | Dir.horizontal => if direction = Side.up then -step else step

/-- nudgeSplitSize from src/electron/pane/utils.ts: the tree is returned
unchanged when the root is null or no matching-axis ancestor split exists. -/
def nudgeSplitSize (root : Option Node) (targetLeafId : Nat)
    (direction : Side) (step : Rat) : Option Node :=
  match root with
  | none => none
  | some r =>
      let axis := axisOf direction
      let delta := resizeDelta direction step
      some ((resizeAux r targetLeafId axis delta).getD r)

/-! Serialization (src/electron/storage/paneState.ts) and restore
(Window.restoreNode, src/electron/window/index.ts). -/

/-- SerializedNode from src/electron/storage/paneState.ts: the Node union
with the live surfaces stripped. -/
inductive SerializedNode
  | leaf (id : Nat) (url : String) (title favicon description
      backgroundColor textColor image : Option String)
  | split (dir : Dir) (size : Rat) (a b : SerializedNode)
deriving DecidableEq, Repr

/-- serializeNode from src/electron/storage/paneState.ts (the non-null
case; JSON.stringify drops undefined fields, hence Option). -/
def serializeNode : Node → SerializedNode
  | Node.leaf d =>
      SerializedNode.leaf d.id d.url d.title d.favicon d.description
        d.backgroundColor d.textColor d.image
  | Node.split dir sz a b =>
      SerializedNode.split dir sz (serializeNode a) (serializeNode b)

/-- The effect of restoreNode's truthiness-guarded metadata copy
(if (node.title) pane.leaf.title = node.title): a saved field overrides the
fresh leaf's field (undefined after make, modelling the ignored live-surface
read) only when it is a truthy, i.e. non-empty, string. -/
def truthyOpt : Option String → Option String
  | none => none
  | some s => if s = "" then none else some s

/-- Window.restoreNode from src/electron/window/index.ts.  make(url,
providedId) computes id = providedId || allocId(); the nondeterministic
allocId stream is passed in as alloc with a counter k, consulted only when
the saved id is falsy (0).  The fresh leaf's metadata starts undefined
(live-surface reads are outside the model) and each saved field is copied
over only when truthy. -/
def restoreNode (alloc : Nat → Nat) : SerializedNode → Nat → Node × Nat
  | SerializedNode.leaf id url title favicon description bg txt img, k =>
      let newId := if id = 0 then alloc k else id
      let k2 := if id = 0 then k + 1 else k
      (Node.leaf ⟨newId, url, truthyOpt title, truthyOpt favicon,
        truthyOpt description, truthyOpt bg, truthyOpt txt, truthyOpt img⟩, k2)
  | SerializedNode.split dir size a b, k =>
      let p := restoreNode alloc a k
      let q := restoreNode alloc b p.2
      (Node.split dir size p.1 q.1, q.2)

/-! Keyboard dispatch: the before-input-event handler installed by
Window.subscribe (src/electron/window/index.ts). -/

/-- A raw key event with its modifier flags (Electron.Input). -/
structure KeyInput where
  key : String
  meta : Bool
  shift : Bool
  alt : Bool
  control : Bool
deriving DecidableEq, Repr

/-- JavaScript String.prototype.toLowerCase on key names: character-wise
lowering (String.toLower written over the character list so that it
reduces inside the kernel). -/
def jsToLower (s : String) : String := ⟨s.data.map Char.toLower⟩

/-- buildKeybindString from the before-input-event handler: modifiers in
the order meta, shift, alt, control, joined with +, then the lower-cased
key. -/
def buildKeybindString (input : KeyInput) : String :=
  let modifiers :=
    (if input.meta then ["meta"] else []) ++
    (if input.shift then ["shift"] else []) ++
    (if input.alt then ["alt"] else []) ++
    (if input.control then ["control"] else [])
  let key := jsToLower input.key
  if modifiers.length > 0 then String.intercalate "+" modifiers ++ "+" ++ key
  else key

/-- The hint alphabet (f removed since it toggles biscuits). -/
def HINT_CHARS : String := "asdghjklqwertuiopzxcvbnm"

/-- Whether the first character list is a prefix of the second. -/
def charsPrefixOf : List Char → List Char → Bool
  | [], _ => true
  | _ :: _, [] => false
  | c :: cs, d :: ds => c == d && charsPrefixOf cs ds

/-- Whether the second character list occurs as a contiguous run inside the
first. -/
def charsContains : List Char → List Char → Bool
  | [], t => t.isEmpty
  | c :: cs, t => charsPrefixOf t (c :: cs) || charsContains cs t

/-- JavaScript String.prototype.includes: substring containment (the empty
string is contained in everything), over the character lists so that it
reduces inside the kernel. -/
def jsStringIncludes (s t : String) : Bool :=
  charsContains s.data t.data

/-- The chords bound in the overlayKeys table of the handler. -/
def overlayKeyChords : List String :=
  ["f", "g", "j", "k", "m", "shift+g", "shift+d", "shift+u",
   "control+h", "control+l", "control+k", "control+j",
   "shift+h", "shift+l", "shift+k", "shift+j"]

/-- The chords bound in the paneKeys table of the handler. -/
def paneKeyChords : List String :=
  ["meta+l", "meta+1", "meta+2", "meta+3", "meta+4", "meta+5", "meta+6",
   "meta+7", "meta+8", "meta+9", "meta+r", "meta+shift+r", "meta+[", "meta+]"]

/-- The chords bound in the appKeys table of the handler. -/
def appKeyChords : List String :=
  ["meta+w", "meta+shift+h", "meta+shift+l", "meta+shift+k", "meta+shift+j"]

/-- Which return point of the before-input-event handler a keyDown reaches.
Each constructor records the branch taken; biscuitHintChar and
biscuitBackspace carry the new typed string. -/
inductive DispatchResult
  | biscuitEscape
  | biscuitHintChar (typed : String)
  | biscuitBackspace (typed : String)
  | biscuitAbort
  | biscuitIgnored
  | escapeTypingBlur
  | escapeIgnored
  | typingSuppressed
  | run (chord : String)
  | unhandled
deriving DecidableEq, Repr

/-- Whether the handler branch called event.preventDefault(), i.e. the
keystroke is withheld from the page. -/
def keyConsumed : DispatchResult → Bool
  | DispatchResult.biscuitEscape => true
  | DispatchResult.biscuitHintChar _ => true
  | DispatchResult.biscuitBackspace _ => true
  | DispatchResult.biscuitAbort => true
  | DispatchResult.escapeTypingBlur => true
  | DispatchResult.run _ => true
  | _ => false

/-- The biscuit (hint-mode) state after the handler branch, given the state
(active, typed) before it: escape and abort deactivate and clear, hint
characters and backspace update typed, every other branch leaves it alone. -/
def biscuitAfter (r : DispatchResult) (st : Bool × String) : Bool × String :=
  match r with
  | DispatchResult.biscuitEscape => (false, "")
  | DispatchResult.biscuitHintChar t => (true, t)
  | DispatchResult.biscuitBackspace t => (true, t)
  | DispatchResult.biscuitAbort => (false, "")
  | _ => st

/-- The before-input-event handler of Window.subscribe
(src/electron/window/index.ts), for a keyDown event, as a pure function of
the pane's overlay flag, biscuit state (active, typed) and typing flag.
Branches in source order: the hint-mode interceptor, the escape handler,
then the layered keymap lookup with its typing-context suppression. -/
def dispatch (overlay biscuitsActive isTyping : Bool) (typed : String)
    (input : KeyInput) : DispatchResult :=
  if biscuitsActive && input.key ≠ "" then
    let key := jsToLower input.key
    if key = "escape" then DispatchResult.biscuitEscape
    else if jsStringIncludes HINT_CHARS key
        && !input.control && !input.meta && !input.alt then
      DispatchResult.biscuitHintChar (typed ++ key)
    else if key = "backspace" && typed.length > 0 then
      DispatchResult.biscuitBackspace (typed.dropRight 1)
    else if key.length = 1 && !input.control && !input.meta && !input.alt then
      DispatchResult.biscuitAbort
    else DispatchResult.biscuitIgnored
  else if jsToLower input.key = "escape" && !overlay then
    if biscuitsActive then DispatchResult.escapeIgnored
    else if isTyping then DispatchResult.escapeTypingBlur
    else DispatchResult.escapeIgnored
  else
    let keybindString := buildKeybindString input
    let allKeybinds :=
      (if !overlay && !biscuitsActive then overlayKeyChords else [])
        ++ paneKeyChords ++ appKeyChords
    if allKeybinds.contains keybindString then
      let isTypingKey := !input.meta && !input.control && !input.alt
      if isTypingKey && !overlay && !biscuitsActive then
        if isTyping then DispatchResult.typingSuppressed
        else DispatchResult.run keybindString
      else DispatchResult.run keybindString
    else DispatchResult.unhandled

/-! The Window state (src/electron/window/index.ts) and its tree-mutating
operations.  The per-pane Map fields are modelled by their key lists (the
values of searchStates etc. play no role in the claims below); paneById
keeps its values since split reads the target leaf through it. -/

/-- The mutable fields of Window relevant to the tree operations:
the live root, paneById and the per-pane transient-state maps
(searchStates, overlayStates, biscuitStates, typingStates,
searchDebounceTimers), the last-active pane, which pane's webContents was
last given focus, and whether window.close() was invoked. -/
structure WinState where
  root : Option Node
  panes : List (Nat × LeafData)
  searchKeys : List Nat
  overlayStateKeys : List Nat
  biscuitKeys : List Nat
  typingKeys : List Nat
  searchDebounceKeys : List Nat
  lastActivePaneId : Option Nat
  focused : Option Nat
  windowClosed : Bool
deriving DecidableEq, Repr

/-- Window.focus: a no-op on an unknown id, otherwise records the pane as
last active and gives its webContents keyboard focus. -/
def focusOp (s : WinState) (id : Nat) : WinState :=
  match s.panes.lookup id with
  | none => s
  | some _ => { s with lastActivePaneId := some id, focused := some id }

/-- Window.make(url, providedId): creates the pane with undefined metadata
(the live loadURL / getTitle effects are outside the model), registers it
in paneById and seeds its searchStates / overlayStates / biscuitStates /
typingStates entries (Map.set on a fresh id appends), then focuses it. -/
def makeOp (s : WinState) (url : String) (id : Nat) : WinState × LeafData :=
  let leaf : LeafData := ⟨id, url, none, none, none, none, none, none⟩
  let s1 : WinState := { s with
    panes := s.panes ++ [(id, leaf)],
    searchKeys := s.searchKeys ++ [id],
    overlayStateKeys := s.overlayStateKeys ++ [id],
    biscuitKeys := s.biscuitKeys ++ [id],
    typingKeys := s.typingKeys ++ [id] }
  (focusOp s1 id, leaf)

/-- replaceChild (src/electron/pane/utils.ts) composed with the parent
found by findParent: in-place slot replacement of the identity-matched
child is modelled as substituting the replacement for the first leaf with
targetId, which is the child slot findParent located. -/
def substLeaf : Node → Nat → Node → Node
  | Node.leaf d, targetId, replacement =>
      if d.id == targetId then replacement else Node.leaf d
  | Node.split dir sz a b, targetId, replacement =>
      if containsNode a targetId then
        Node.split dir sz (substLeaf a targetId replacement) b
      else if containsNode b targetId then
        Node.split dir sz a (substLeaf b targetId replacement)
      else Node.split dir sz a b

/-- JavaScript url || default for the url argument of split. -/
def jsOrStr (url : Option String) (dflt : String) : String :=
  match url with
  | none => dflt
  | some u => if u = "" then dflt else u

/-- Window.split(id, dir, side, url?): -1 when there is no root or id has
no live pane; otherwise makes a new pane (newId standing for the allocId
result), builds a ratio-0.5 Split placing the new leaf on the requested
side (left / up = child a, right / down = child b), substitutes it for the
target leaf (or makes it the new root when the target had no parent),
marks the new pane last-active and focuses it, returning its id. -/
def splitOp (s : WinState) (id : Nat) (dir : Dir) (side : Side)
    (url : Option String) (newId : Nat) : Int × WinState :=
  match s.root with
  | none => (-1, s)
  | some root =>
      match s.panes.lookup id with
      | none => (-1, s)
      | some child =>
          let target := Node.leaf child
          let parent := findParent root id none
          let made := makeOp s (jsOrStr url "https://chat.com") newId
          let other := made.2
          let node : Node :=
            match dir with
            | Dir.vertical =>
                if side = Side.left then
                  Node.split dir (mkRat 1 2) (Node.leaf other) target
                else Node.split dir (mkRat 1 2) target (Node.leaf other)
            | Dir.horizontal =>
                if side = Side.up then
                  Node.split dir (mkRat 1 2) (Node.leaf other) target
                else Node.split dir (mkRat 1 2) target (Node.leaf other)
          let root2 :=
            match parent with
            | none => node
            | some _ => substLeaf root id node
          let s2 : WinState :=
            { made.1 with root := some root2, lastActivePaneId := some other.id }
          ((other.id : Int), focusOp s2 other.id)

/-- The center x coordinate of a rect (r.x + r.width / 2). -/
def paneCenterX (r : Rect) : Rat := (r.x : Rat) + (r.width : Rat) / 2

/-- The center y coordinate of a rect (r.y + r.height / 2). -/
def paneCenterY (r : Rect) : Rat := (r.y : Rat) + (r.height : Rat) / 2

/-- The id / rect projection of the layout over the viewport (0, 0, w, h),
as computed by Window.getAll and by the listBefore snapshot of
Window.close. -/
def layoutPanes (t : Node) (w h : Int) : List (Nat × Rect) :=
  (layout t ⟨0, 0, w, h⟩).map (fun p => (p.id, p.rect))

/-- The squared euclidean distance dx*dx + dy*dy between (cx, cy) and the
center of r, as computed in the scan loop of Window.close. -/
def dist2To (cx cy : Rat) (r : Rect) : Rat :=
  (paneCenterX r - cx) * (paneCenterX r - cx)
    + (paneCenterY r - cy) * (paneCenterY r - cy)

/-- The best-candidate scan of Window.close: walk listBefore skipping the
closed pane, keeping the entry whose center is at strictly smaller squared
distance from (cx, cy) than the best so far. -/
def closeBest (id : Nat) (cx cy : Rat) :
    List (Nat × Rect) → Option (Nat × Rat) → Option (Nat × Rat)
  | [], best => best
  | p :: rest, best =>
      if p.1 == id then closeBest id cx cy rest best
      else
        let d2 := dist2To cx cy p.2
        match best with
        | none => closeBest id cx cy rest (some (p.1, d2))
        | some b =>
            if d2 < b.2 then closeBest id cx cy rest (some (p.1, d2))
            else closeBest id cx cy rest best

/-- The tail of Window.close after the maps are pruned and the root is not
the closed leaf itself: remove the node from the tree, then, when a next
active pane was picked and is still live, record it as last active and
focus it. -/
def closeFinish (s1 : WinState) (root : Node) (id : Nat)
    (nextActive : Option Nat) : WinState :=
  let s2 : WinState := { s1 with root := replaceNode root id }
  match nextActive with
  | none => s2
  | some na =>
      if (s2.panes.lookup na).isSome then
        focusOp { s2 with lastActivePaneId := some na } na
      else s2

/-- Window.close(id) from src/electron/window/index.ts, over the viewport
w x h: compute the pre-removal layout, pick as next active the surviving
pane whose center is closest (squared euclidean distance) to the closed
pane's center, return unchanged when id has no live pane; otherwise prune
the pane from paneById, searchStates, overlayStates, biscuitStates and
searchDebounceTimers (typingStates is not pruned by the source), then
either close the window (sole-leaf root) or remove the leaf from the tree
and focus the picked pane. -/
def closeOp (w h : Int) (s : WinState) (id : Nat) : WinState :=
  match s.root with
  | none => s
  | some root =>
      let listBefore := layoutPanes root w h
      let closedRect := (listBefore.find? (fun p => p.1 == id)).map (fun p => p.2)
      let nextActive : Option Nat :=
        match closedRect with
        | none => none
        | some r =>
            (closeBest id (paneCenterX r) (paneCenterY r) listBefore none).map
              (fun b => b.1)
      match s.panes.lookup id with
      | none => s
      | some _ =>
          let s1 : WinState := { s with
            panes := s.panes.filter (fun p => p.1 ≠ id),
            searchKeys := s.searchKeys.filter (fun k => k ≠ id),
            overlayStateKeys := s.overlayStateKeys.filter (fun k => k ≠ id),
            biscuitKeys := s.biscuitKeys.filter (fun k => k ≠ id),
            searchDebounceKeys := s.searchDebounceKeys.filter (fun k => k ≠ id) }
          match root with
          | Node.leaf d =>
              if d.id == id then { s1 with root := none, windowClosed := true }
              else closeFinish s1 root id nextActive
          | Node.split dir sz a b =>
              closeFinish s1 (Node.split dir sz a b) id nextActive

/-! Window.getAll / Window.getNeighbor (src/electron/window/index.ts). -/

/-- Window.getAll: id and rect of every pane in the current layout. -/
def getAllPanes (root : Option Node) (w h : Int) : List (Nat × Rect) :=
  match root with
  | none => []
  | some r => layoutPanes r w h

/-- A directional candidate of getNeighbor: id, distance along the
requested axis, distance along the orthogonal axis, and whether its rect
overlaps the current rect along the orthogonal axis. -/
structure NCand where
  id : Nat
  primary : Rat
  secondary : Rat
  overlaps : Bool
deriving DecidableEq, Repr

/-- The correctSide test of getNeighbor. -/
def correctSideQ (dir : Side) (dx dy : Rat) : Bool :=
  match dir with
  | Side.left => dx < 0
  | Side.right => dx > 0
  | Side.up => dy < 0
  | Side.down => dy > 0

/-- The overlapsOrth test of getNeighbor: for left / right the vertical
extents must overlap, for up / down the horizontal extents. -/
def overlapsOrthQ (dir : Side) (cur r : Rect) : Bool :=
  if dir = Side.left || dir = Side.right then
    max cur.y r.y < min (cur.y + cur.height) (r.y + r.height)
  else
    max cur.x r.x < min (cur.x + cur.width) (r.x + r.width)

/-- The candidate-collecting loop of getNeighbor: skip the current pane,
keep correctly-sided panes with their primary / secondary distances and
overlap classification (the source splits them into two arrays in one
pass; here one pass collects and the two filters below split). -/
def neighborCands (panes : List (Nat × Rect)) (cur : Rect) (currentId : Nat)
    (dir : Side) : List NCand :=
  let cx := paneCenterX cur
  let cy := paneCenterY cur
  panes.filterMap (fun p =>
    if p.1 == currentId then none
    else
      let dx := paneCenterX p.2 - cx
      let dy := paneCenterY p.2 - cy
      if correctSideQ dir dx dy then
        let isHorizontal := dir = Side.left || dir = Side.right
        some ⟨p.1, abs (if isHorizontal then dx else dy),
              abs (if isHorizontal then dy else dx),
              overlapsOrthQ dir cur p.2⟩
      else none)

/-- The (primary, secondary, id) ascending comparator of
pickByPrimaryThenSecondary. -/
def candLtPS (a b : NCand) : Bool :=
  if a.primary < b.primary then true
  else if a.primary = b.primary then
    if a.secondary < b.secondary then true
    else if a.secondary = b.secondary then decide (a.id < b.id)
    else false
  else false

/-- The fallback comparator: angle = secondary / max(1, primary) ascending,
then euclidean distance ascending, then id.  Math.hypot(a, b) comparisons
between non-negative arguments coincide with comparisons of the squares
a*a + b*b, which keeps the definition rational. -/
def candLtAngle (a b : NCand) : Bool :=
  let angA := a.secondary / max 1 a.primary
  let angB := b.secondary / max 1 b.primary
  if angA ≠ angB then decide (angA < angB)
  else
    let dA := a.primary * a.primary + a.secondary * a.secondary
    let dB := b.primary * b.primary + b.secondary * b.secondary
    if dA ≠ dB then decide (dA < dB) else decide (a.id < b.id)

/-- sort-with-comparator followed by taking element 0, i.e. the minimum
under the given strict comparator (the first such element on ties). -/
def pickFirstBy (lt : NCand → NCand → Bool) : List NCand → Option NCand
  | [] => none
  | c :: rest => some (rest.foldl (fun best x => if lt x best then x else best) c)

/-- The body of Window.getNeighbor over an explicit pane list: find the
current pane, collect correctly-sided candidates, prefer orthogonally
overlapping ones ranked by (primary, secondary, id), otherwise fall back
to all correctly-sided ones ranked by (angle, distance, id); none when no
pane lies in that direction. -/
def getNeighborFromList (panes : List (Nat × Rect)) (currentId : Nat)
    (dir : Side) : Option Nat :=
  match panes.find? (fun p => p.1 == currentId) with
  | none => none
  | some cur =>
      let cands := neighborCands panes cur.2 currentId dir
      let overlapCands := cands.filter (fun c => c.overlaps)
      let fallbackCands := cands.filter (fun c => !c.overlaps)
      match pickFirstBy candLtPS overlapCands with
      | some c => some c.id
      | none => (pickFirstBy candLtAngle fallbackCands).map (fun c => c.id)

/-- Window.getNeighbor(currentId, dir): the directional rectangle search
over the current layout. -/
def getNeighbor (root : Option Node) (w h : Int) (currentId : Nat)
    (dir : Side) : Option Nat :=
  getNeighborFromList (getAllPanes root w h) currentId dir

/-! Specification-side notions used to state the theorems below.  These are
not translations of program code: they are the geometric and structural
vocabulary the claims are phrased in. -/

/-- Membership of the integer pixel column p, row q in a rect, viewing the
rect as the half-open box [x, x + width) x [y, y + height). -/
def Rect.containsPt (r : Rect) (p q : Int) : Prop :=
  r.x ≤ p ∧ p < r.x + r.width ∧ r.y ≤ q ∧ q < r.y + r.height

/-- The one-gutter-wide strip that splitChildRects reserves between the two
child rects of a split. -/
def gutterStrip (dir : Dir) (size : Rat) (rect : Rect) (p q : Int) : Prop :=
  match dir with
  | Dir.vertical =>
      let wA : Int := ⌊((rect.width - PANE_GUTTER : Int) : Rat) * size⌋
      rect.x + wA ≤ p ∧ p < rect.x + wA + PANE_GUTTER ∧
      rect.y ≤ q ∧ q < rect.y + rect.height
  | Dir.horizontal =>
      let hA : Int := ⌊((rect.height - PANE_GUTTER : Int) : Rat) * size⌋
      rect.x ≤ p ∧ p < rect.x + rect.width ∧
      rect.y + hA ≤ q ∧ q < rect.y + hA + PANE_GUTTER

/-- The leaf ids of a tree in recursion (pre-)order. -/
def leafIds : Node → List Nat
  | Node.leaf d => [d.id]
  | Node.split _ _ a b => leafIds a ++ leafIds b

/-- Every leaf id of the tree is non-zero (live ids come from allocId =
Date.now() + random, hence are positive). -/
def idsPos : Node → Bool
  | Node.leaf d => d.id != 0
  | Node.split _ _ a b => idsPos a && idsPos b

/-- The truthiness filter of restoreNode applied to every metadata field of
a leaf. -/
def truthyLeaf (d : LeafData) : LeafData :=
  ⟨d.id, d.url, truthyOpt d.title, truthyOpt d.favicon,
   truthyOpt d.description, truthyOpt d.backgroundColor,
   truthyOpt d.textColor, truthyOpt d.image⟩

/-- The truthiness filter applied to every leaf of a tree. -/
def mapMeta : Node → Node
  | Node.leaf d => Node.leaf (truthyLeaf d)
  | Node.split dir sz a b => Node.split dir sz (mapMeta a) (mapMeta b)

/-- The shape of a tree together with its split directions and ratios and
its leaf ids and urls - everything except the optional leaf metadata. -/
inductive Skel
  | leaf (id : Nat) (url : String)
  | node (dir : Dir) (size : Rat) (a b : Skel)
deriving DecidableEq, Repr

/-- The skeleton of a tree. -/
def skel : Node → Skel
  | Node.leaf d => Skel.leaf d.id d.url
  | Node.split dir sz a b => Skel.node dir sz (skel a) (skel b)

/-- Every split ratio of the tree lies in [lo, hi]. -/
def ratiosWithinB (lo hi : Rat) : Node → Bool
  | Node.leaf _ => true
  | Node.split _ sz a b =>
      decide (lo ≤ sz) && decide (sz ≤ hi)
        && ratiosWithinB lo hi a && ratiosWithinB lo hi b

/-- ratiosWithinB lifted to the optional root. -/
def rootRatiosOK (root : Option Node) : Bool :=
  match root with
  | none => true
  | some t => ratiosWithinB (mkRat 1 20) (mkRat 19 20) t

/-- The multiset of all split ratios of a tree. -/
def sizesOf : Node → Multiset Rat
  | Node.leaf _ => 0
  | Node.split _ sz a b => sz ::ₘ (sizesOf a + sizesOf b)

/-- A sequence of resize operations (target leaf, direction, step) applied
in order through nudgeSplitSize. -/
def applyResizes (root : Option Node) (ops : List (Nat × Side × Rat)) :
    Option Node :=
  ops.foldl (fun r op => nudgeSplitSize r op.1 op.2.1 op.2.2) root

/-- The chords reachable in normal mode (overlay closed, hint mode off):
the union of the three keymap layers spread into allKeybinds. -/
def normalModeChords : List String :=
  overlayKeyChords ++ paneKeyChords ++ appKeyChords

/-! Theorems. -/

/-- For 0 <= s <= 1 the floored share floor(n * s) of a non-negative extent
n lies between 0 and n. -/
theorem floor_share_bounds (n : Int) (s : Rat) (hn : 0 ≤ n) (h0 : 0 ≤ s)
    (h1 : s ≤ 1) : 0 ≤ ⌊(n : Rat) * s⌋ ∧ ⌊(n : Rat) * s⌋ ≤ n := by
  constructor
  · exact Int.floor_nonneg.mpr (mul_nonneg (by exact_mod_cast hn) h0)
  · calc ⌊(n : Rat) * s⌋ ≤ ⌊(n : Rat)⌋ := by
          apply Int.floor_le_floor
          exact mul_le_of_le_one_right (by exact_mod_cast hn) h1
      _ = n := Int.floor_intCast n

/-- C1: for every split node and every rectangle, layout divides the
rectangle along the split's axis into the two splitChildRects, computed
with floor(extent * ratio) for child a and the remainder for child b with
one gutter between them; the two child rects never overlap, their union is
exactly the parent rect minus the one-gutter strip, and their areas sum to
the parent area minus the gutter strip's area. -/
theorem layout_split_partitions (dir : Dir) (size : Rat) (a b : Node)
    (rect : Rect) (h0 : 0 ≤ size) (h1 : size ≤ 1)
    (hw : 1 ≤ rect.width) (hh : 1 ≤ rect.height) :
    layout (Node.split dir size a b) rect =
      layout a (splitChildRects dir size rect).1
        ++ layout b (splitChildRects dir size rect).2
    ∧ (∀ p q : Int, ¬(Rect.containsPt (splitChildRects dir size rect).1 p q
          ∧ Rect.containsPt (splitChildRects dir size rect).2 p q))
    ∧ (∀ p q : Int,
        (Rect.containsPt (splitChildRects dir size rect).1 p q
          ∨ Rect.containsPt (splitChildRects dir size rect).2 p q)
        ↔ (Rect.containsPt rect p q ∧ ¬ gutterStrip dir size rect p q))
    ∧ (splitChildRects dir size rect).1.width
          * (splitChildRects dir size rect).1.height
        + (splitChildRects dir size rect).2.width
          * (splitChildRects dir size rect).2.height
        + (match dir with
           | Dir.vertical => rect.height
           | Dir.horizontal => rect.width) * PANE_GUTTER
      = rect.width * rect.height := by
  cases dir with
  | vertical =>
    obtain ⟨hb1, hb2⟩ := floor_share_bounds (rect.width - PANE_GUTTER) size
      (by simp only [PANE_GUTTER]; omega) h0 h1
    refine ⟨rfl, ?_, ?_, ?_⟩
    · intro p q
      simp only [splitChildRects, Rect.containsPt, PANE_GUTTER] at *
      omega
    · intro p q
      simp only [splitChildRects, Rect.containsPt, gutterStrip, PANE_GUTTER] at *
      omega
    · simp only [splitChildRects, PANE_GUTTER]
      ring
  | horizontal =>
    obtain ⟨hb1, hb2⟩ := floor_share_bounds (rect.height - PANE_GUTTER) size
      (by simp only [PANE_GUTTER]; omega) h0 h1
    refine ⟨rfl, ?_, ?_, ?_⟩
    · intro p q
      simp only [splitChildRects, Rect.containsPt, PANE_GUTTER] at *
      omega
    · intro p q
      simp only [splitChildRects, Rect.containsPt, gutterStrip, PANE_GUTTER] at *
      omega
    · simp only [splitChildRects, PANE_GUTTER]
      ring

/-- layout emits the PaneStates of the leaves in recursion order: the list
of emitted ids is exactly the list of leaf ids. -/
theorem layout_map_id (t : Node) : ∀ rect : Rect,
    (layout t rect).map PaneState.id = leafIds t := by
  induction t with
  | leaf d => intro rect; simp [layout, leafIds]
  | split dir sz a b iha ihb =>
      intro rect
      simp [layout, leafIds, iha, ihb]

/-- C6: every leaf contributes exactly one PaneState (the emitted ids are
precisely the leaf ids); the bounds given to a leaf's surfaces are inset by
the fixed gutter exactly on the edges that do not lie on the viewport
boundary (edge position compared against the viewport bounds), never on a
boundary edge; and a single-leaf tree gets one PaneState covering the full
viewport whose surface bounds are the full viewport with zero gutters. -/
theorem layout_leaf_gutters :
    (∀ (t : Node) (rect : Rect), (layout t rect).map PaneState.id = leafIds t)
    ∧ (∀ (w h : Int) (rect : Rect),
        (0 < rect.x → (leafViewBounds w h rect).x = rect.x + PANE_GUTTER)
        ∧ (rect.x ≤ 0 → (leafViewBounds w h rect).x = rect.x)
        ∧ (0 < rect.y → (leafViewBounds w h rect).y = rect.y + PANE_GUTTER)
        ∧ (rect.y ≤ 0 → (leafViewBounds w h rect).y = rect.y)
        ∧ (2 ≤ rect.width →
            (rect.x + rect.width < w →
              (leafViewBounds w h rect).x + (leafViewBounds w h rect).width
                = rect.x + rect.width - PANE_GUTTER)
            ∧ (w ≤ rect.x + rect.width →
              (leafViewBounds w h rect).x + (leafViewBounds w h rect).width
                = rect.x + rect.width))
        ∧ (2 ≤ rect.height →
            (rect.y + rect.height < h →
              (leafViewBounds w h rect).y + (leafViewBounds w h rect).height
                = rect.y + rect.height - PANE_GUTTER)
            ∧ (h ≤ rect.y + rect.height →
              (leafViewBounds w h rect).y + (leafViewBounds w h rect).height
                = rect.y + rect.height)))
    ∧ (∀ (w h : Int) (d : LeafData), 0 ≤ w → 0 ≤ h →
        layout (Node.leaf d) ⟨0, 0, w, h⟩
          = [⟨d.id, d.url, d.title.getD "", ⟨0, 0, w, h⟩, d.favicon.getD "",
              d.backgroundColor.getD "", d.textColor.getD "",
              d.description.getD "", d.image.getD ""⟩]
        ∧ leafViewBounds w h ⟨0, 0, w, h⟩ = ⟨0, 0, w, h⟩) := by
  refine ⟨fun t rect => layout_map_id t rect, ?_, ?_⟩
  · intro w h rect
    simp only [leafViewBounds, PANE_GUTTER]
    refine ⟨?_, ?_, ?_, ?_, ?_, ?_⟩ <;> intros <;> split_ifs <;>
      simp_all <;> omega
  · intro w h d hw hh
    constructor
    · simp [layout]
    · simp only [leafViewBounds, PANE_GUTTER]
      split_ifs <;> simp_all

/-- resizeAux finds nothing when the target id is nowhere in the tree. -/
theorem resizeAux_not_contains (t : Node) (id : Nat) (axis : Dir) (δ : Rat)
    (h : containsNode t id = false) : resizeAux t id axis δ = none := by
  cases t with
  | leaf d => rfl
  | split dir sz a b =>
      simp only [containsNode, Bool.or_eq_false_iff] at h
      simp [resizeAux, h.1, h.2]

/-- C2: tree operations on an unknown pane id are sentinel-returning
no-ops: split returns -1 and leaves the window state untouched when there
is no root or no live pane for the id; replaceNode returns the tree
unchanged when the id is absent; nudgeSplitSize leaves the tree unchanged
when the id is absent. -/
theorem unknown_id_noops :
    (∀ (s : WinState) (id : Nat) (dir : Dir) (side : Side)
        (url : Option String) (newId : Nat),
        s.root = none → splitOp s id dir side url newId = (-1, s))
    ∧ (∀ (s : WinState) (id : Nat) (dir : Dir) (side : Side)
        (url : Option String) (newId : Nat),
        s.panes.lookup id = none → splitOp s id dir side url newId = (-1, s))
    ∧ (∀ (t : Node) (id : Nat),
        containsNode t id = false → replaceNode t id = some t)
    ∧ (∀ (t : Node) (id : Nat) (dir : Side) (step : Rat),
        containsNode t id = false →
          nudgeSplitSize (some t) id dir step = some t) := by
  refine ⟨?_, ?_, ?_, ?_⟩
  · intro s id dir side url newId h
    simp [splitOp, h]
  · intro s id dir side url newId h
    cases hr : s.root with
    | none => simp [splitOp, hr]
    | some root => simp [splitOp, hr, h]
  · intro t id h
    induction t with
    | leaf d =>
        simp only [containsNode] at h
        simp [replaceNode, h]
    | split dir sz a b iha ihb =>
        simp only [containsNode, Bool.or_eq_false_iff] at h
        simp [replaceNode, iha h.1, ihb h.2]
  · intro t id dir step h
    simp [nudgeSplitSize, resizeAux_not_contains t id _ _ h]

/-- When findSplitForResize finds no matching split, resizeAux changes
nothing (returns none). -/
theorem resizeAux_none_of_find (t : Node) (id : Nat) (axis : Dir) (δ : Rat)
    (h : findSplitForResize t id axis = none) : resizeAux t id axis δ = none := by
  induction t with
  | leaf d => rfl
  | split dir sz a b iha ihb =>
      cases hA : containsNode a id with
      | true =>
          simp only [findSplitForResize, hA, Bool.not_true, Bool.false_and,
            Bool.and_false, Bool.not_false, Bool.and_self, Bool.false_eq_true, Bool.true_eq_false, if_false, if_true, reduceIte] at h
          simp only [resizeAux, hA, Bool.not_true, Bool.false_and,
            Bool.and_false, Bool.not_false, Bool.false_eq_true, Bool.true_eq_false, if_false, if_true, reduceIte]
          cases hfa : findSplitForResize a id axis with
          | some r => rw [hfa] at h; simp at h
          | none =>
              rw [hfa] at h
              rw [iha hfa]
              by_cases hd : dir = axis
              · rw [if_pos hd] at h; simp at h
              · simp [hd]
      | false =>
          cases hB : containsNode b id with
          | false =>
              simp [resizeAux, hA, hB]
          | true =>
              simp only [findSplitForResize, hA, hB, Bool.not_false,
                Bool.true_and, Bool.not_true, Bool.and_false, Bool.false_eq_true, Bool.true_eq_false, if_false, if_true, reduceIte] at h
              simp only [resizeAux, hA, hB, Bool.not_false, Bool.true_and,
                Bool.not_true, Bool.and_false, Bool.false_eq_true, Bool.true_eq_false, if_false, if_true, reduceIte]
              cases hfb : findSplitForResize b id axis with
              | some r => rw [hfb] at h; simp at h
              | none =>
                  rw [hfb] at h
                  rw [ihb hfb]
                  by_cases hd : dir = axis
                  · rw [if_pos hd] at h; simp at h
                  · simp [hd]

/-- When findSplitForResize finds a split of size sz0 with the target in
child a iff inA0, resizeAux succeeds and the multiset of split ratios of
the result is that of the input with sz0 replaced by the clamped nudged
value max(1/20, min(19/20, sz0 ± δ)). -/
theorem resizeAux_found (t : Node) (id : Nat) (axis : Dir) (δ : Rat) :
    ∀ sz0 inA0, findSplitForResize t id axis = some (sz0, inA0) →
    ∃ t2, resizeAux t id axis δ = some t2 ∧
      sizesOf t2 + {sz0}
        = sizesOf t
          + {max (mkRat 1 20) (min (mkRat 19 20) (sz0 + (if inA0 then δ else -δ)))} := by
  induction t with
  | leaf d => intro sz0 inA0 h; simp [findSplitForResize] at h
  | split dir sz a b iha ihb =>
      intro sz0 inA0 h
      cases hA : containsNode a id with
      | true =>
          simp only [findSplitForResize, hA, Bool.not_true, Bool.false_and,
            Bool.and_false, Bool.not_false, Bool.false_eq_true, Bool.true_eq_false, if_false, if_true, reduceIte] at h
          cases hfa : findSplitForResize a id axis with
          | some r =>
              rw [hfa] at h
              simp only [Option.some.injEq] at h
              obtain ⟨a2, ha2, hsz⟩ := iha sz0 inA0 (by rw [hfa, h])
              refine ⟨Node.split dir sz a2 b, ?_, ?_⟩
              · simp only [resizeAux, hA, Bool.not_true, Bool.false_and,
                  Bool.and_false, Bool.not_false, Bool.false_eq_true, Bool.true_eq_false, if_false, if_true, reduceIte, ha2]
              · simp only [sizesOf, ← Multiset.singleton_add]
                calc {sz} + (sizesOf a2 + sizesOf b) + {sz0}
                    = (sizesOf a2 + {sz0}) + ({sz} + sizesOf b) := by abel
                  _ = (sizesOf a
                        + {max (mkRat 1 20) (min (mkRat 19 20)
                            (sz0 + (if inA0 then δ else -δ)))})
                      + ({sz} + sizesOf b) := by rw [hsz]
                  _ = {sz} + (sizesOf a + sizesOf b)
                      + {max (mkRat 1 20) (min (mkRat 19 20)
                          (sz0 + (if inA0 then δ else -δ)))} := by abel
          | none =>
              rw [hfa] at h
              by_cases hd : dir = axis
              · rw [if_pos hd] at h
                simp only [Option.some.injEq, Prod.mk.injEq] at h
                obtain ⟨hsz0, hinA0⟩ := h
                refine ⟨Node.split dir
                  (max (mkRat 1 20) (min (mkRat 19 20) (sz + δ))) a b, ?_, ?_⟩
                · simp only [resizeAux, hA, Bool.not_true, Bool.false_and,
                    Bool.and_false, Bool.not_false, Bool.false_eq_true, Bool.true_eq_false, if_false, if_true, reduceIte,
                    resizeAux_none_of_find a id axis δ hfa, if_pos hd]
                · subst hsz0; subst hinA0
                  simp only [sizesOf, if_true, ← Multiset.singleton_add]
                  abel
              · rw [if_neg hd] at h; simp at h
      | false =>
          cases hB : containsNode b id with
          | false => simp [findSplitForResize, hA, hB] at h
          | true =>
              simp only [findSplitForResize, hA, hB, Bool.not_false,
                Bool.true_and, Bool.not_true, Bool.and_false, Bool.false_eq_true, Bool.true_eq_false, if_false, if_true, reduceIte] at h
              cases hfb : findSplitForResize b id axis with
              | some r =>
                  rw [hfb] at h
                  simp only [Option.some.injEq] at h
                  obtain ⟨b2, hb2, hsz⟩ := ihb sz0 inA0 (by rw [hfb, h])
                  refine ⟨Node.split dir sz a b2, ?_, ?_⟩
                  · simp only [resizeAux, hA, hB, Bool.not_false,
                      Bool.true_and, Bool.not_true, Bool.and_false,
                      Bool.false_eq_true, Bool.true_eq_false, if_false, if_true, reduceIte, hb2]
                  · simp only [sizesOf, ← Multiset.singleton_add]
                    calc {sz} + (sizesOf a + sizesOf b2) + {sz0}
                        = (sizesOf b2 + {sz0}) + ({sz} + sizesOf a) := by abel
                      _ = (sizesOf b
                            + {max (mkRat 1 20) (min (mkRat 19 20)
                                (sz0 + (if inA0 then δ else -δ)))})
                          + ({sz} + sizesOf a) := by rw [hsz]
                      _ = {sz} + (sizesOf a + sizesOf b)
                          + {max (mkRat 1 20) (min (mkRat 19 20)
                              (sz0 + (if inA0 then δ else -δ)))} := by abel
              | none =>
                  rw [hfb] at h
                  by_cases hd : dir = axis
                  · rw [if_pos hd] at h
                    simp only [Option.some.injEq, Prod.mk.injEq] at h
                    obtain ⟨hsz0, hinA0⟩ := h
                    refine ⟨Node.split dir
                      (max (mkRat 1 20) (min (mkRat 19 20) (sz - δ))) a b, ?_, ?_⟩
                    · simp only [resizeAux, hA, hB, Bool.not_false,
                        Bool.true_and, Bool.not_true, Bool.and_false,
                        Bool.false_eq_true, Bool.true_eq_false, if_false, if_true, reduceIte, resizeAux_none_of_find b id axis δ hfb,
                        if_pos hd]
                    · subst hsz0; subst hinA0
                      simp only [sizesOf, if_false, ← Multiset.singleton_add,
                        sub_eq_add_neg]
                      abel
                  · rw [if_neg hd] at h; simp at h

/-- resizeAux keeps every split ratio inside [1/20, 19/20] when they all
were inside before, since the only ratio it writes is clamped into that
interval. -/
theorem resizeAux_ratios (t : Node) (id : Nat) (axis : Dir) (δ : Rat)
    (ht : ratiosWithinB (mkRat 1 20) (mkRat 19 20) t = true) :
    ∀ t2, resizeAux t id axis δ = some t2 →
      ratiosWithinB (mkRat 1 20) (mkRat 19 20) t2 = true := by
  induction t with
  | leaf d => intro t2 h; simp [resizeAux] at h
  | split dir sz a b iha ihb =>
      intro t2 h
      simp only [ratiosWithinB, Bool.and_eq_true, decide_eq_true_eq] at ht
      obtain ⟨⟨⟨h1, h2⟩, hra⟩, hrb⟩ := ht
      have hclamp : ∀ x : Rat, mkRat 1 20 ≤ max (mkRat 1 20) (min (mkRat 19 20) x)
          ∧ max (mkRat 1 20) (min (mkRat 19 20) x) ≤ mkRat 19 20 := by
        intro x
        refine ⟨le_max_left _ _, max_le (by norm_num) (min_le_left _ _)⟩
      cases hA : containsNode a id with
      | true =>
          simp only [resizeAux, hA, Bool.not_true, Bool.false_and,
            Bool.and_false, Bool.not_false, Bool.false_eq_true, Bool.true_eq_false, if_false, if_true, reduceIte] at h
          cases hfa : resizeAux a id axis δ with
          | some a2 =>
              rw [hfa] at h
              simp only [Option.some.injEq] at h
              subst h
              simp only [ratiosWithinB, Bool.and_eq_true, decide_eq_true_eq]
              exact ⟨⟨⟨h1, h2⟩, iha hra a2 hfa⟩, hrb⟩
          | none =>
              rw [hfa] at h
              by_cases hd : dir = axis
              · rw [if_pos hd] at h
                simp only [Option.some.injEq] at h
                subst h
                simp only [ratiosWithinB, Bool.and_eq_true, decide_eq_true_eq]
                exact ⟨⟨⟨(hclamp (sz + δ)).1, (hclamp (sz + δ)).2⟩, hra⟩, hrb⟩
              · rw [if_neg hd] at h; simp at h
      | false =>
          cases hB : containsNode b id with
          | false => simp [resizeAux, hA, hB] at h
          | true =>
              simp only [resizeAux, hA, hB, Bool.not_false, Bool.true_and,
                Bool.not_true, Bool.and_false, Bool.false_eq_true, Bool.true_eq_false, if_false, if_true, reduceIte] at h
              cases hfb : resizeAux b id axis δ with
              | some b2 =>
                  rw [hfb] at h
                  simp only [Option.some.injEq] at h
                  subst h
                  simp only [ratiosWithinB, Bool.and_eq_true, decide_eq_true_eq]
                  exact ⟨⟨⟨h1, h2⟩, hra⟩, ihb hrb b2 hfb⟩
              | none =>
                  rw [hfb] at h
                  by_cases hd : dir = axis
                  · rw [if_pos hd] at h
                    simp only [Option.some.injEq] at h
                    subst h
                    simp only [ratiosWithinB, Bool.and_eq_true, decide_eq_true_eq]
                    exact ⟨⟨⟨(hclamp (sz - δ)).1, (hclamp (sz - δ)).2⟩, hra⟩, hrb⟩
                  · rw [if_neg hd] at h; simp at h

/-- One nudgeSplitSize call preserves the all-ratios-in-range invariant. -/
theorem nudge_preserves_ratios (root : Option Node) (id : Nat) (dir : Side)
    (step : Rat) (h : rootRatiosOK root = true) :
    rootRatiosOK (nudgeSplitSize root id dir step) = true := by
  cases root with
  | none => simpa [nudgeSplitSize] using h
  | some r =>
      simp only [rootRatiosOK] at h
      simp only [nudgeSplitSize, rootRatiosOK]
      cases hra : resizeAux r id (axisOf dir) (resizeDelta dir step) with
      | none => simpa [hra] using h
      | some t2 => simpa [hra] using resizeAux_ratios r id _ _ h t2 hra

/-- C3: resize nudges the ratio of the split found by findSplitForResize
(the nearest matching-axis ancestor on the path to the target leaf) by
plus-or-minus step clamped into [1/20, 19/20] and changes no other ratio;
when no matching-axis ancestor exists the tree is returned unchanged; and
every sequence of resize operations keeps all ratios within [1/20, 19/20]
once they are. -/
theorem resize_clamped_and_invariant :
    (∀ (root : Node) (id : Nat) (dir : Side) (step : Rat),
        findSplitForResize root id (axisOf dir) = none →
          nudgeSplitSize (some root) id dir step = some root)
    ∧ (∀ (root : Node) (id : Nat) (dir : Side) (step : Rat)
        (sz0 : Rat) (inA0 : Bool),
        findSplitForResize root id (axisOf dir) = some (sz0, inA0) →
        ∃ root2, nudgeSplitSize (some root) id dir step = some root2
          ∧ sizesOf root2 + {sz0}
              = sizesOf root
                + {max (mkRat 1 20) (min (mkRat 19 20)
                    (sz0 + (if inA0 then resizeDelta dir step
                            else -(resizeDelta dir step))))}
          ∧ mkRat 1 20 ≤ max (mkRat 1 20) (min (mkRat 19 20)
                (sz0 + (if inA0 then resizeDelta dir step
                        else -(resizeDelta dir step))))
          ∧ max (mkRat 1 20) (min (mkRat 19 20)
                (sz0 + (if inA0 then resizeDelta dir step
                        else -(resizeDelta dir step)))) ≤ mkRat 19 20)
    ∧ (∀ (root : Option Node) (ops : List (Nat × Side × Rat)),
        rootRatiosOK root = true → rootRatiosOK (applyResizes root ops) = true) := by
  refine ⟨?_, ?_, ?_⟩
  · intro root id dir step h
    simp [nudgeSplitSize,
      resizeAux_none_of_find root id (axisOf dir) (resizeDelta dir step) h]
  · intro root id dir step sz0 inA0 h
    obtain ⟨t2, ht2, hsz⟩ :=
      resizeAux_found root id (axisOf dir) (resizeDelta dir step) sz0 inA0 h
    refine ⟨t2, ?_, hsz, le_max_left _ _,
      max_le (by norm_num) (min_le_left _ _)⟩
    simp [nudgeSplitSize, ht2]
  · intro root ops
    induction ops generalizing root with
    | nil => intro h; exact h
    | cons op rest ih =>
        intro h
        have hstep := nudge_preserves_ratios root op.1 op.2.1 op.2.2 h
        simpa [applyResizes] using ih _ hstep

/-- Rendering with the ?? "" default ignores the truthiness filter: an
absent field and an empty-string field both render as "". -/
theorem truthyOpt_getD (o : Option String) : (truthyOpt o).getD "" = o.getD "" := by
  cases o with
  | none => rfl
  | some s =>
      by_cases hs : s = ""
      · subst hs; simp [truthyOpt]
      · simp [truthyOpt, hs]

/-- On a tree whose leaf ids are all non-zero, restoring the serialized
tree rebuilds it exactly, up to the truthiness filter on leaf metadata,
without consuming any fresh ids. -/
theorem restore_serialize (alloc : Nat → Nat) (t : Node)
    (hpos : idsPos t = true) :
    ∀ k, restoreNode alloc (serializeNode t) k = (mapMeta t, k) := by
  induction t with
  | leaf d =>
      intro k
      simp only [idsPos, bne_iff_ne, ne_eq] at hpos
      simp [serializeNode, restoreNode, mapMeta, truthyLeaf, hpos]
  | split dir sz a b iha ihb =>
      intro k
      simp only [idsPos, Bool.and_eq_true] at hpos
      simp [serializeNode, restoreNode, iha hpos.1, ihb hpos.2, mapMeta]

/-- The truthiness filter on leaf metadata is invisible to layout. -/
theorem layout_mapMeta (t : Node) : ∀ rect,
    layout (mapMeta t) rect = layout t rect := by
  induction t with
  | leaf d =>
      intro rect
      simp [layout, mapMeta, truthyLeaf, truthyOpt_getD]
  | split dir sz a b iha ihb =>
      intro rect
      simp [layout, mapMeta, iha, ihb]

/-- The truthiness filter on leaf metadata preserves the skeleton. -/
theorem skel_mapMeta (t : Node) : skel (mapMeta t) = skel t := by
  induction t with
  | leaf d => rfl
  | split dir sz a b iha ihb => simp [mapMeta, skel, iha, ihb]

/-- C4: deserializing the result of serializing a tree (all live ids being
non-zero) produces a tree with the same skeleton - shape, split directions,
split ratios, leaf ids and leaf urls - whose layout over any viewport is
the identical PaneState list. -/
theorem serialize_restore_roundtrip (alloc : Nat → Nat) (t : Node) (k : Nat)
    (hpos : idsPos t = true) :
    skel (restoreNode alloc (serializeNode t) k).1 = skel t
    ∧ (restoreNode alloc (serializeNode t) k).2 = k
    ∧ ∀ rect, layout (restoreNode alloc (serializeNode t) k).1 rect
        = layout t rect := by
  rw [restore_serialize alloc t hpos k]
  exact ⟨skel_mapMeta t, rfl, fun rect => layout_mapMeta t rect⟩

/-- In a two-pane list, when the second pane lies on the requested side of
the first and overlaps it orthogonally, the neighbor of the first is the
second. -/
theorem neighbor_pair_first (i1 i2 : Nat) (r1 r2 : Rect) (dir : Side)
    (hne : i1 ≠ i2)
    (hside : correctSideQ dir (paneCenterX r2 - paneCenterX r1)
        (paneCenterY r2 - paneCenterY r1) = true)
    (hov : overlapsOrthQ dir r1 r2 = true) :
    getNeighborFromList [(i1, r1), (i2, r2)] i1 dir = some i2 := by
  have hne2 : i2 ≠ i1 := Ne.symm hne
  simp [getNeighborFromList, neighborCands, pickFirstBy, List.find?,
    List.filterMap_cons, List.filter_cons, hne, hne2, hside, hov]

/-- In a two-pane list, when the first pane lies on the requested side of
the second and overlaps it orthogonally, the neighbor of the second is the
first. -/
theorem neighbor_pair_second (i1 i2 : Nat) (r1 r2 : Rect) (dir : Side)
    (hne : i1 ≠ i2)
    (hside : correctSideQ dir (paneCenterX r1 - paneCenterX r2)
        (paneCenterY r1 - paneCenterY r2) = true)
    (hov : overlapsOrthQ dir r2 r1 = true) :
    getNeighborFromList [(i1, r1), (i2, r2)] i2 dir = some i1 := by
  have hne2 : i2 ≠ i1 := Ne.symm hne
  have hbe : (i1 == i2) = false := beq_eq_false_iff_ne.mpr hne
  simp [getNeighborFromList, neighborCands, pickFirstBy, List.find?,
    List.filterMap_cons, List.filter_cons, hbe, hne, hne2, hside, hov]

/-- C5: in a two-pane vertical split (pane A left, pane B right) over any
viewport of non-negative width and positive height, the neighbor resolver
is anti-symmetric: B is A's right neighbor and A is B's left neighbor. -/
theorem neighbor_antisym_two_pane (w h : Int) (s : Rat) (dA dB : LeafData)
    (hw : 0 ≤ w) (hh : 0 < h) (hne : dA.id ≠ dB.id) :
    getNeighbor (some (Node.split Dir.vertical s (Node.leaf dA) (Node.leaf dB)))
        w h dA.id Side.right = some dB.id
    ∧ getNeighbor (some (Node.split Dir.vertical s (Node.leaf dA) (Node.leaf dB)))
        w h dB.id Side.left = some dA.id := by
  have hpanes : getAllPanes
      (some (Node.split Dir.vertical s (Node.leaf dA) (Node.leaf dB))) w h
      = [(dA.id, ⟨0, 0, ⌊((w - 1 : Int) : Rat) * s⌋, h⟩),
         (dB.id, ⟨0 + ⌊((w - 1 : Int) : Rat) * s⌋ + 1, 0,
           w - 1 - ⌊((w - 1 : Int) : Rat) * s⌋, h⟩)] := by
    simp [getAllPanes, layoutPanes, layout, splitChildRects, PANE_GUTTER]
  have hwq : (0 : Rat) ≤ (w : Rat) := by exact_mod_cast hw
  have hdx : paneCenterX ⟨0 + ⌊((w - 1 : Int) : Rat) * s⌋ + 1, 0,
        w - 1 - ⌊((w - 1 : Int) : Rat) * s⌋, h⟩
      - paneCenterX ⟨0, 0, ⌊((w - 1 : Int) : Rat) * s⌋, h⟩
      = ((w : Rat) + 1) / 2 := by
    simp only [paneCenterX]
    push_cast
    ring
  have hdxpos : (0 : Rat) < ((w : Rat) + 1) / 2 := by linarith
  constructor
  · rw [show getNeighbor
        (some (Node.split Dir.vertical s (Node.leaf dA) (Node.leaf dB)))
          w h dA.id Side.right
        = getNeighborFromList (getAllPanes
            (some (Node.split Dir.vertical s (Node.leaf dA) (Node.leaf dB)))
            w h) dA.id Side.right from rfl, hpanes]
    apply neighbor_pair_first _ _ _ _ _ hne
    · simp only [correctSideQ, hdx]
      exact decide_eq_true hdxpos
    · simp only [overlapsOrthQ]
      simp [hh]
  · rw [show getNeighbor
        (some (Node.split Dir.vertical s (Node.leaf dA) (Node.leaf dB)))
          w h dB.id Side.left
        = getNeighborFromList (getAllPanes
            (some (Node.split Dir.vertical s (Node.leaf dA) (Node.leaf dB)))
            w h) dB.id Side.left from rfl, hpanes]
    apply neighbor_pair_second _ _ _ _ _ hne
    · simp only [correctSideQ]
      have hdx2 : paneCenterX ⟨0, 0, ⌊((w - 1 : Int) : Rat) * s⌋, h⟩
          - paneCenterX ⟨0 + ⌊((w - 1 : Int) : Rat) * s⌋ + 1, 0,
              w - 1 - ⌊((w - 1 : Int) : Rat) * s⌋, h⟩
          = -(((w : Rat) + 1) / 2) := by
        rw [show paneCenterX ⟨0, 0, ⌊((w - 1 : Int) : Rat) * s⌋, h⟩
            - paneCenterX ⟨0 + ⌊((w - 1 : Int) : Rat) * s⌋ + 1, 0,
                w - 1 - ⌊((w - 1 : Int) : Rat) * s⌋, h⟩
            = -(paneCenterX ⟨0 + ⌊((w - 1 : Int) : Rat) * s⌋ + 1, 0,
                w - 1 - ⌊((w - 1 : Int) : Rat) * s⌋, h⟩
              - paneCenterX ⟨0, 0, ⌊((w - 1 : Int) : Rat) * s⌋, h⟩) from by ring,
          hdx]
      rw [hdx2]
      exact decide_eq_true (by linarith)
    · simp only [overlapsOrthQ]
      simp [hh]

/-- C7 (amended): with the overlay closed and hint mode off, a chord with
no modifiers at all that matches a binding is let through to the page
(no preventDefault, binding not executed) while Typing is true, and a
binding whose chord carries meta, control or alt is executed regardless of
the Typing flag.  (Shift alone does not count: shift-only chords are
suppressed like unmodified ones - see the counterexample.) -/
theorem typing_suppression :
    (∀ (input : KeyInput) (typed : String),
        input.meta = false → input.shift = false → input.alt = false →
        input.control = false →
        buildKeybindString input ∈ normalModeChords →
        dispatch false false true typed input = DispatchResult.typingSuppressed
        ∧ keyConsumed (dispatch false false true typed input) = false)
    ∧ (∀ (input : KeyInput) (typed : String) (isTyping : Bool),
        (input.meta || input.control || input.alt) = true →
        jsToLower input.key ≠ "escape" →
        buildKeybindString input ∈ normalModeChords →
        dispatch false false isTyping typed input
          = DispatchResult.run (buildKeybindString input)) := by
  constructor
  · intro input typed hm hs ha hc hmem
    have hchord : buildKeybindString input = jsToLower input.key := by
      simp [buildKeybindString, hm, hs, ha, hc]
    have hkey : jsToLower input.key ≠ "escape" := by
      intro he
      rw [hchord, he] at hmem
      exact absurd hmem (by decide)
    have hif : buildKeybindString input ∈ overlayKeyChords
        ∨ buildKeybindString input ∈ paneKeyChords
        ∨ buildKeybindString input ∈ appKeyChords := by
      simpa [normalModeChords, List.mem_append, or_assoc] using hmem
    constructor
    · simp [dispatch, hkey, hif, hm, ha, hc]
    · simp [dispatch, hkey, hif, hm, ha, hc, keyConsumed]
  · intro input typed isTyping hmod hkey hmem
    have hif : buildKeybindString input ∈ overlayKeyChords
        ∨ buildKeybindString input ∈ paneKeyChords
        ∨ buildKeybindString input ∈ appKeyChords := by
      simpa [normalModeChords, List.mem_append, or_assoc] using hmem
    cases hma : input.meta with
    | true => simp [dispatch, hkey, hif, hma]
    | false =>
        cases hca : input.control with
        | true => simp [dispatch, hkey, hif, hma, hca]
        | false =>
            cases haa : input.alt with
            | true => simp [dispatch, hkey, hif, hma, hca, haa]
            | false => rw [hma, hca, haa] at hmod; simp at hmod

/-- C7 counterexample to the claim as stated: the chord shift+g carries a
modifier, matches a binding, yet is suppressed (not executed) while the
Typing flag is set, because the handler's isTypingKey test ignores shift. -/
theorem typing_suppression_counterexample :
    buildKeybindString ⟨"g", false, true, false, false⟩ = "shift+g"
    ∧ "shift+g" ∈ normalModeChords
    ∧ (⟨"g", false, true, false, false⟩ : KeyInput).shift = true
    ∧ dispatch false false true "" ⟨"g", false, true, false, false⟩
        = DispatchResult.typingSuppressed
    ∧ dispatch false false true "" ⟨"g", false, true, false, false⟩
        ≠ DispatchResult.run "shift+g" := by
  refine ⟨by decide, by decide, rfl, by decide, by decide⟩

/-- C8 (amended): in hint mode, a single printable character with no
modifiers that is neither Escape, nor Backspace, nor in the hint alphabet
aborts hint mode (active set to false, typed cleared) and consumes the
keystroke: the handler prevents the default and returns, so the key is
neither delivered to the page nor handled by the normal keymaps. -/
theorem hint_abort (overlay isTyping : Bool) (typed : String)
    (input : KeyInput) (hkey : input.key ≠ "")
    (hlen : (jsToLower input.key).length = 1)
    (hhint : jsStringIncludes HINT_CHARS (jsToLower input.key) = false)
    (hm : input.meta = false) (hc : input.control = false)
    (ha : input.alt = false) :
    dispatch overlay true isTyping typed input = DispatchResult.biscuitAbort
    ∧ biscuitAfter (dispatch overlay true isTyping typed input) (true, typed)
        = (false, "")
    ∧ keyConsumed (dispatch overlay true isTyping typed input) = true := by
  have hesc : jsToLower input.key ≠ "escape" := by
    intro he; rw [he] at hlen; exact absurd hlen (by decide)
  have hbs : ¬(jsToLower input.key = "backspace" ∧ 0 < typed.length) := by
    intro hcon; rw [hcon.1] at hlen; exact absurd hlen (by decide)
  have hd : dispatch overlay true isTyping typed input
      = DispatchResult.biscuitAbort := by
    simp [dispatch, hkey, hesc, hbs, hhint, hlen, hm, hc, ha]
  exact ⟨hd, by rw [hd]; rfl, by rw [hd]; rfl⟩

/-- C8 counterexample to the claim as stated: with hint mode active, the
printable non-hint key 1 is consumed (preventDefault, handler returns)
rather than falling through to normal handling - the same key in normal
mode matches no binding and would reach the page. -/
theorem hint_abort_counterexample :
    dispatch false true false "" ⟨"1", false, false, false, false⟩
      = DispatchResult.biscuitAbort
    ∧ keyConsumed (dispatch false true false ""
        ⟨"1", false, false, false, false⟩) = true
    ∧ dispatch false false false "" ⟨"1", false, false, false, false⟩
      = DispatchResult.unhandled
    ∧ keyConsumed DispatchResult.unhandled = false := by decide

/-- closeFinish only rewrites the root, the last-active pane and the focus:
every per-pane map and paneById itself pass through unchanged. -/
theorem closeFinish_keys (s1 : WinState) (root : Node) (id : Nat)
    (na : Option Nat) :
    (closeFinish s1 root id na).searchKeys = s1.searchKeys
    ∧ (closeFinish s1 root id na).overlayStateKeys = s1.overlayStateKeys
    ∧ (closeFinish s1 root id na).biscuitKeys = s1.biscuitKeys
    ∧ (closeFinish s1 root id na).searchDebounceKeys = s1.searchDebounceKeys
    ∧ (closeFinish s1 root id na).typingKeys = s1.typingKeys
    ∧ (closeFinish s1 root id na).panes = s1.panes := by
  cases na with
  | none => simp [closeFinish]
  | some n =>
      cases hl : List.lookup n s1.panes with
      | none => simp [closeFinish, focusOp, hl]
      | some v => simp [closeFinish, focusOp, hl]

/-- C9: the code contradicts the pruning requirement for typing state.
Closing a live pane removes its entry from searchStates, overlayStates,
biscuitStates and searchDebounceTimers in the same mutation that removes
the leaf, but typingStates is left untouched by close, so a stale typing
entry for the closed pane survives. -/
theorem close_prunes_but_not_typing (w h : Int) (s : WinState) (t : Node)
    (id : Nat) (hroot : s.root = some t)
    (hpane : (s.panes.lookup id).isSome) :
    id ∉ (closeOp w h s id).searchKeys
    ∧ id ∉ (closeOp w h s id).overlayStateKeys
    ∧ id ∉ (closeOp w h s id).biscuitKeys
    ∧ id ∉ (closeOp w h s id).searchDebounceKeys
    ∧ (closeOp w h s id).typingKeys = s.typingKeys := by
  obtain ⟨v, hv⟩ := Option.isSome_iff_exists.mp hpane
  have hnm : ∀ l : List Nat, id ∉ l.filter (fun k => k ≠ id) := by
    intro l hmem
    exact absurd (List.of_mem_filter hmem) (by simp)
  cases t with
  | leaf d =>
      by_cases hdid : d.id == id
      · simp only [closeOp, hroot, hv, hdid, if_true, reduceIte]
        exact ⟨hnm _, hnm _, hnm _, hnm _, trivial⟩
      · simp only [closeOp, hroot, hv, hdid, if_false, Bool.false_eq_true,
          reduceIte]
        refine ⟨?_, ?_, ?_, ?_, ?_⟩
        · rw [(closeFinish_keys _ _ _ _).1]; exact hnm _
        · rw [(closeFinish_keys _ _ _ _).2.1]; exact hnm _
        · rw [(closeFinish_keys _ _ _ _).2.2.1]; exact hnm _
        · rw [(closeFinish_keys _ _ _ _).2.2.2.1]; exact hnm _
        · rw [(closeFinish_keys _ _ _ _).2.2.2.2.1]
  | split dir sz a b =>
      simp only [closeOp, hroot, hv]
      refine ⟨?_, ?_, ?_, ?_, ?_⟩
      · rw [(closeFinish_keys _ _ _ _).1]; exact hnm _
      · rw [(closeFinish_keys _ _ _ _).2.1]; exact hnm _
      · rw [(closeFinish_keys _ _ _ _).2.2.1]; exact hnm _
      · rw [(closeFinish_keys _ _ _ _).2.2.2.1]; exact hnm _
      · rw [(closeFinish_keys _ _ _ _).2.2.2.2.1]

/-- The scan loop of Window.close computes a minimizer: whenever it yields
a best entry, that entry's distance is no greater than the distance of any
surviving pane scanned, it improves on the incoming accumulator, and it is
either one of the scanned survivors or the accumulator itself. -/
theorem closeBest_spec (cid : Nat) (cx cy : Rat) :
    ∀ (l : List (Nat × Rect)) (acc : Option (Nat × Rat)) (b : Nat × Rat),
      closeBest cid cx cy l acc = some b →
      (∀ b0, acc = some b0 → b.2 ≤ b0.2)
      ∧ (∀ p ∈ l, p.1 ≠ cid → b.2 ≤ dist2To cx cy p.2)
      ∧ ((∃ p, p ∈ l ∧ p.1 ≠ cid ∧ b = (p.1, dist2To cx cy p.2))
          ∨ acc = some b) := by
  intro l
  induction l with
  | nil =>
      intro acc b h
      simp only [closeBest] at h
      refine ⟨?_, by simp, Or.inr h⟩
      intro b0 h0
      rw [h0] at h
      simp only [Option.some.injEq] at h
      rw [h]
  | cons p rest ih =>
      intro acc b h
      simp only [closeBest] at h
      by_cases hp : (p.1 == cid) = true
      · rw [if_pos hp] at h
        obtain ⟨ih1, ih2, ih3⟩ := ih acc b h
        have hpeq : p.1 = cid := by simpa using hp
        refine ⟨ih1, ?_, ?_⟩
        · intro q hq hqc
          rcases List.mem_cons.mp hq with hq1 | hq2
          · exact absurd (hq1 ▸ hpeq) hqc
          · exact ih2 q hq2 hqc
        · rcases ih3 with ⟨q, hq, hqc, hb⟩ | hacc
          · exact Or.inl ⟨q, List.mem_cons_of_mem _ hq, hqc, hb⟩
          · exact Or.inr hacc
      · rw [if_neg hp] at h
        have hpne : p.1 ≠ cid := by simpa using hp
        cases acc with
        | none =>
            obtain ⟨ih1, ih2, ih3⟩ := ih (some (p.1, dist2To cx cy p.2)) b h
            have hble : b.2 ≤ dist2To cx cy p.2 := ih1 _ rfl
            refine ⟨by simp, ?_, ?_⟩
            · intro q hq hqc
              rcases List.mem_cons.mp hq with hq1 | hq2
              · rw [hq1]; exact hble
              · exact ih2 q hq2 hqc
            · rcases ih3 with ⟨q, hq, hqc, hb⟩ | hacc
              · exact Or.inl ⟨q, List.mem_cons_of_mem _ hq, hqc, hb⟩
              · simp only [Option.some.injEq] at hacc
                exact Or.inl ⟨p, List.mem_cons_self _ _, hpne, hacc.symm⟩
        | some b0 =>
            replace h : (if dist2To cx cy p.2 < b0.2 then
                closeBest cid cx cy rest (some (p.1, dist2To cx cy p.2))
              else closeBest cid cx cy rest (some b0)) = some b := h
            by_cases hlt : dist2To cx cy p.2 < b0.2
            · rw [if_pos hlt] at h
              obtain ⟨ih1, ih2, ih3⟩ := ih (some (p.1, dist2To cx cy p.2)) b h
              have hble : b.2 ≤ dist2To cx cy p.2 := ih1 _ rfl
              refine ⟨?_, ?_, ?_⟩
              · intro b0' h0
                simp only [Option.some.injEq] at h0
                rw [← h0]
                exact le_of_lt (lt_of_le_of_lt hble hlt)
              · intro q hq hqc
                rcases List.mem_cons.mp hq with hq1 | hq2
                · rw [hq1]; exact hble
                · exact ih2 q hq2 hqc
              · rcases ih3 with ⟨q, hq, hqc, hb⟩ | hacc
                · exact Or.inl ⟨q, List.mem_cons_of_mem _ hq, hqc, hb⟩
                · simp only [Option.some.injEq] at hacc
                  exact Or.inl ⟨p, List.mem_cons_self _ _, hpne, hacc.symm⟩
            · rw [if_neg hlt] at h
              obtain ⟨ih1, ih2, ih3⟩ := ih (some b0) b h
              have hble : b.2 ≤ b0.2 := ih1 _ rfl
              refine ⟨?_, ?_, ?_⟩
              · intro b0' h0
                simp only [Option.some.injEq] at h0
                rw [← h0]
                exact hble
              · intro q hq hqc
                rcases List.mem_cons.mp hq with hq1 | hq2
                · rw [hq1]
                  exact le_trans hble (le_of_not_lt hlt)
                · exact ih2 q hq2 hqc
              · rcases ih3 with ⟨q, hq, hqc, hb⟩ | hacc
                · exact Or.inl ⟨q, List.mem_cons_of_mem _ hq, hqc, hb⟩
                · exact Or.inr hacc

/-- The scan loop yields a best entry whenever some survivor exists or the
accumulator is already populated. -/
theorem closeBest_isSome (cid : Nat) (cx cy : Rat) :
    ∀ (l : List (Nat × Rect)) (acc : Option (Nat × Rat)),
      ((∃ p ∈ l, p.1 ≠ cid) ∨ acc.isSome = true) →
      (closeBest cid cx cy l acc).isSome = true := by
  intro l
  induction l with
  | nil =>
      intro acc h
      rcases h with ⟨p, hp, _⟩ | h
      · simp at hp
      · simpa [closeBest] using h
  | cons p rest ih =>
      intro acc h
      simp only [closeBest]
      by_cases hp : (p.1 == cid) = true
      · rw [if_pos hp]
        apply ih
        rcases h with ⟨q, hq, hqc⟩ | hs
        · rcases List.mem_cons.mp hq with hq1 | hq2
          · exact absurd (by simpa using hp) (hq1 ▸ hqc)
          · exact Or.inl ⟨q, hq2, hqc⟩
        · exact Or.inr hs
      · rw [if_neg hp]
        cases acc with
        | none => exact ih _ (Or.inr rfl)
        | some b0 =>
            show (if dist2To cx cy p.2 < b0.2 then
                closeBest cid cx cy rest (some (p.1, dist2To cx cy p.2))
              else closeBest cid cx cy rest (some b0)).isSome = true
            by_cases hlt : dist2To cx cy p.2 < b0.2
            · rw [if_pos hlt]; exact ih _ (Or.inr rfl)
            · rw [if_neg hlt]; exact ih _ (Or.inr rfl)

/-- Filtering the closed pane out of paneById does not affect lookups of
other panes. -/
theorem lookup_filter_ne (id j : Nat) (hne : j ≠ id) :
    ∀ l : List (Nat × LeafData),
      List.lookup j (l.filter (fun p => p.1 ≠ id)) = List.lookup j l := by
  intro l
  induction l with
  | nil => rfl
  | cons p rest ih =>
      rw [List.filter_cons]
      by_cases hp : p.1 = id
      · have hpred : (decide (p.1 ≠ id)) = false := by simp [hp]
        have hbeq : (j == p.1) = false := by
          simp only [beq_eq_false_iff_ne, ne_eq, hp]
          exact hne
        rw [hpred]
        simp only [Bool.false_eq_true, if_false]
        rw [ih]
        simp [List.lookup, hbeq]
      · have hpred : (decide (p.1 ≠ id)) = true := by simp [hp]
        rw [hpred]
        simp only [if_true]
        by_cases hj : j = p.1
        · simp [List.lookup, hj]
        · have hbeq : (j == p.1) = false := by simp [hj]
          simp only [List.lookup, hbeq]
          simpa using ih

/-- Every tree has at least one leaf. -/
theorem leafIds_ne_nil (t : Node) : leafIds t ≠ [] := by
  cases t with
  | leaf d => simp [leafIds]
  | split dir sz a b =>
      simp only [leafIds, ne_eq, List.append_eq_nil]
      intro hcon
      exact leafIds_ne_nil a hcon.1

/-- find? over the pane list locates the first entry carrying a present
id, paired with its rect. -/
theorem find_pair_of_mem (id : Nat) :
    ∀ L : List (Nat × Rect), id ∈ L.map Prod.fst →
      ∃ rc, List.find? (fun p => p.1 == id) L = some (id, rc)
        ∧ (id, rc) ∈ L := by
  intro L
  induction L with
  | nil => intro h; simp at h
  | cons p rest ih =>
      intro h
      by_cases hp : p.1 = id
      · refine ⟨p.2, ?_, ?_⟩
        · rw [List.find?_cons_of_pos _ (by simp [hp])]
          rw [← hp]
        · rw [← hp]
          exact List.mem_cons_self _ _
      · simp only [List.map_cons, List.mem_cons] at h
        rcases h with h1 | h2
        · exact absurd h1.symm hp
        · obtain ⟨rc, hfind, hmem⟩ := ih h2
          exact ⟨rc, by rw [List.find?_cons_of_neg _ (by simp [hp]), hfind],
            List.mem_cons_of_mem _ hmem⟩

/-- In a nodup list of length at least two, every element has a distinct
companion. -/
theorem exists_other {l : List Nat} (a : Nat) (hnd : l.Nodup)
    (hlen : 2 ≤ l.length) : ∃ b ∈ l, b ≠ a := by
  match l, hlen with
  | x :: y :: rest, _ =>
      by_cases hx : x = a
      · refine ⟨y, by simp, ?_⟩
        intro hy
        have : x ≠ y := by
          have := List.nodup_cons.mp hnd
          intro hxy
          exact this.1 (hxy ▸ List.mem_cons_self _ _)
        exact this (hx.trans hy.symm)
      · exact ⟨x, by simp, hx⟩

/-- When the picked next-active pane is still live, closeFinish records it
as last active and focuses it. -/
theorem closeFinish_focus (s1 : WinState) (root : Node) (id na : Nat)
    (v2 : LeafData) (hlk : List.lookup na s1.panes = some v2) :
    (closeFinish s1 root id (some na)).lastActivePaneId = some na
    ∧ (closeFinish s1 root id (some na)).focused = some na := by
  simp [closeFinish, focusOp, hlk]

/-- C10: closing a leaf of a multi-pane tree picks as new last-active pane
a surviving pane whose rect center (in the layout computed just before the
removal) minimizes the squared euclidean distance to the closed pane's rect
center, records it as last active and gives it focus. -/
theorem close_focuses_nearest (w h : Int) (s : WinState) (dir0 : Dir)
    (sz0 : Rat) (a0 b0 : Node) (id : Nat)
    (hroot : s.root = some (Node.split dir0 sz0 a0 b0))
    (hmem : id ∈ leafIds (Node.split dir0 sz0 a0 b0))
    (hnodup : (leafIds (Node.split dir0 sz0 a0 b0)).Nodup)
    (hpanes : ∀ i ∈ leafIds (Node.split dir0 sz0 a0 b0),
      (s.panes.lookup i).isSome = true) :
    ∃ na rb rc,
      (closeOp w h s id).lastActivePaneId = some na
      ∧ (closeOp w h s id).focused = some na
      ∧ na ≠ id
      ∧ (na, rb) ∈ layoutPanes (Node.split dir0 sz0 a0 b0) w h
      ∧ List.find? (fun p => p.1 == id)
          (layoutPanes (Node.split dir0 sz0 a0 b0) w h) = some (id, rc)
      ∧ ∀ q ∈ layoutPanes (Node.split dir0 sz0 a0 b0) w h, q.1 ≠ id →
          dist2To (paneCenterX rc) (paneCenterY rc) rb
            ≤ dist2To (paneCenterX rc) (paneCenterY rc) q.2 := by
  have hmapfst : (layoutPanes (Node.split dir0 sz0 a0 b0) w h).map Prod.fst
      = leafIds (Node.split dir0 sz0 a0 b0) := by
    rw [layoutPanes, List.map_map]
    exact layout_map_id _ _
  obtain ⟨rc, hfind, hrcmem⟩ :=
    find_pair_of_mem id _ (by rw [hmapfst]; exact hmem)
  have hlen2 : 2 ≤ (leafIds (Node.split dir0 sz0 a0 b0)).length := by
    simp only [leafIds, List.length_append]
    have h1 := List.length_pos.mpr (leafIds_ne_nil a0)
    have h2 := List.length_pos.mpr (leafIds_ne_nil b0)
    omega
  obtain ⟨j, hj, hjne⟩ := exists_other id hnodup hlen2
  have hjL : j ∈ (layoutPanes (Node.split dir0 sz0 a0 b0) w h).map Prod.fst := by
    rw [hmapfst]; exact hj
  obtain ⟨q0, hq0, hq0fst⟩ := List.mem_map.mp hjL
  have hsome := closeBest_isSome id (paneCenterX rc) (paneCenterY rc)
    (layoutPanes (Node.split dir0 sz0 a0 b0) w h) none
    (Or.inl ⟨q0, hq0, by rw [hq0fst]; exact hjne⟩)
  obtain ⟨nb, hnb⟩ := Option.isSome_iff_exists.mp hsome
  obtain ⟨hmono, hmin, hwit⟩ :=
    closeBest_spec id (paneCenterX rc) (paneCenterY rc) _ none nb hnb
  rcases hwit with ⟨p, hpL, hpne, hbp⟩ | hcon
  swap
  · exact absurd hcon (by simp)
  obtain ⟨v, hv⟩ := Option.isSome_iff_exists.mp (hpanes id hmem)
  have hnane : nb.1 ≠ id := by rw [hbp]; exact hpne
  have hna_mem : nb.1 ∈ leafIds (Node.split dir0 sz0 a0 b0) := by
    rw [← hmapfst]
    exact List.mem_map.mpr ⟨p, hpL, by rw [hbp]⟩
  have heval : closeOp w h s id
      = closeFinish
          { s with
            panes := s.panes.filter (fun p => p.1 ≠ id),
            searchKeys := s.searchKeys.filter (fun k => k ≠ id),
            overlayStateKeys := s.overlayStateKeys.filter (fun k => k ≠ id),
            biscuitKeys := s.biscuitKeys.filter (fun k => k ≠ id),
            searchDebounceKeys := s.searchDebounceKeys.filter (fun k => k ≠ id) }
          (Node.split dir0 sz0 a0 b0) id (some nb.1) := by
    simp only [closeOp, hroot, hv, hfind, hnb, Option.map_some']
  have hlookup : List.lookup nb.1 (s.panes.filter (fun p => p.1 ≠ id))
      = List.lookup nb.1 s.panes := lookup_filter_ne id nb.1 hnane s.panes
  obtain ⟨v2, hv2⟩ := Option.isSome_iff_exists.mp (hpanes nb.1 hna_mem)
  have hpeq : (nb.1, p.2) = p := by rw [hbp]
  have hfin := closeFinish_focus
      { s with
        panes := s.panes.filter (fun p => p.1 ≠ id),
        searchKeys := s.searchKeys.filter (fun k => k ≠ id),
        overlayStateKeys := s.overlayStateKeys.filter (fun k => k ≠ id),
        biscuitKeys := s.biscuitKeys.filter (fun k => k ≠ id),
        searchDebounceKeys := s.searchDebounceKeys.filter (fun k => k ≠ id) }
      (Node.split dir0 sz0 a0 b0) id nb.1 v2 (hlookup.trans hv2)
  refine ⟨nb.1, p.2, rc, ?_, ?_, hnane, hpeq ▸ hpL, hfind, ?_⟩
  · rw [heval]
    exact hfin.1
  · rw [heval]
    exact hfin.2
  · intro q hq hqne
    have hq2 := hmin q hq hqne
    rw [hbp] at hq2
    exact hq2

/-! Concrete witnesses: each applies the corresponding theorem at an
explicit input, discharging its hypotheses by computation. -/

/-- Witness for C1 at a vertical ratio-1/2 split of a 10 x 8 rect. -/
theorem layout_split_partitions_witness :
    ((0 : Rat) ≤ mkRat 1 2 ∧ mkRat 1 2 ≤ 1
      ∧ (1 : Int) ≤ (Rect.mk 0 0 10 8).width
      ∧ (1 : Int) ≤ (Rect.mk 0 0 10 8).height)
    ∧ (splitChildRects Dir.vertical (mkRat 1 2) (Rect.mk 0 0 10 8)).1.width
        * (splitChildRects Dir.vertical (mkRat 1 2) (Rect.mk 0 0 10 8)).1.height
      + (splitChildRects Dir.vertical (mkRat 1 2) (Rect.mk 0 0 10 8)).2.width
        * (splitChildRects Dir.vertical (mkRat 1 2) (Rect.mk 0 0 10 8)).2.height
      + (Rect.mk 0 0 10 8).height * PANE_GUTTER
      = (Rect.mk 0 0 10 8).width * (Rect.mk 0 0 10 8).height :=
  ⟨⟨by decide, by decide, by decide, by decide⟩,
   (layout_split_partitions Dir.vertical (mkRat 1 2)
      (Node.leaf ⟨1, "a", none, none, none, none, none, none⟩)
      (Node.leaf ⟨2, "b", none, none, none, none, none, none⟩)
      (Rect.mk 0 0 10 8) (by decide) (by decide) (by decide) (by decide)).2.2.2⟩

/-- Witness for C2: split / remove / resize against the unknown id 99. -/
theorem unknown_id_noops_witness :
    (WinState.mk
        (some (Node.leaf ⟨1, "u", none, none, none, none, none, none⟩))
        [(1, ⟨1, "u", none, none, none, none, none, none⟩)]
        [1] [1] [1] [1] [1] (some 1) none false).panes.lookup 99 = none
    ∧ splitOp
        (WinState.mk
          (some (Node.leaf ⟨1, "u", none, none, none, none, none, none⟩))
          [(1, ⟨1, "u", none, none, none, none, none, none⟩)]
          [1] [1] [1] [1] [1] (some 1) none false)
        99 Dir.vertical Side.right none 5
      = (-1, WinState.mk
          (some (Node.leaf ⟨1, "u", none, none, none, none, none, none⟩))
          [(1, ⟨1, "u", none, none, none, none, none, none⟩)]
          [1] [1] [1] [1] [1] (some 1) none false)
    ∧ replaceNode (Node.leaf ⟨1, "u", none, none, none, none, none, none⟩) 99
      = some (Node.leaf ⟨1, "u", none, none, none, none, none, none⟩)
    ∧ nudgeSplitSize
        (some (Node.leaf ⟨1, "u", none, none, none, none, none, none⟩))
        99 Side.left (3/100)
      = some (Node.leaf ⟨1, "u", none, none, none, none, none, none⟩) :=
  ⟨by decide,
   unknown_id_noops.2.1 _ 99 Dir.vertical Side.right none 5 (by decide),
   unknown_id_noops.2.2.1 _ 99 (by decide),
   unknown_id_noops.2.2.2 _ 99 Side.left (3/100) (by decide)⟩

/-- Witness for C3: a no-op resize on a single leaf and an invariant-kept
resize sequence on a two-pane split. -/
theorem resize_clamped_and_invariant_witness :
    findSplitForResize
        (Node.leaf ⟨1, "u", none, none, none, none, none, none⟩) 1
        (axisOf Side.left) = none
    ∧ nudgeSplitSize
        (some (Node.leaf ⟨1, "u", none, none, none, none, none, none⟩))
        1 Side.left (3/100)
      = some (Node.leaf ⟨1, "u", none, none, none, none, none, none⟩)
    ∧ rootRatiosOK
        (some (Node.split Dir.vertical (mkRat 1 2)
          (Node.leaf ⟨1, "u", none, none, none, none, none, none⟩)
          (Node.leaf ⟨2, "v", none, none, none, none, none, none⟩))) = true
    ∧ rootRatiosOK (applyResizes
        (some (Node.split Dir.vertical (mkRat 1 2)
          (Node.leaf ⟨1, "u", none, none, none, none, none, none⟩)
          (Node.leaf ⟨2, "v", none, none, none, none, none, none⟩)))
        [(2, Side.left, 3/100), (2, Side.left, 3/100)]) = true :=
  ⟨by decide,
   resize_clamped_and_invariant.1 _ 1 Side.left (3/100) (by decide),
   by decide,
   resize_clamped_and_invariant.2.2 _
     [(2, Side.left, 3/100), (2, Side.left, 3/100)] (by decide)⟩

/-- Witness for C4 on a two-leaf vertical split with metadata. -/
theorem serialize_restore_roundtrip_witness :
    idsPos (Node.split Dir.vertical (mkRat 1 2)
        (Node.leaf ⟨1, "https://a", some "A", none, none, none, none, none⟩)
        (Node.leaf ⟨2, "https://b", some "", none, none, none, none, none⟩))
      = true
    ∧ skel (restoreNode (fun _ => 42)
        (serializeNode (Node.split Dir.vertical (mkRat 1 2)
          (Node.leaf ⟨1, "https://a", some "A", none, none, none, none, none⟩)
          (Node.leaf ⟨2, "https://b", some "", none, none, none, none, none⟩)))
        0).1
      = skel (Node.split Dir.vertical (mkRat 1 2)
          (Node.leaf ⟨1, "https://a", some "A", none, none, none, none, none⟩)
          (Node.leaf ⟨2, "https://b", some "", none, none, none, none, none⟩))
    ∧ layout (restoreNode (fun _ => 42)
        (serializeNode (Node.split Dir.vertical (mkRat 1 2)
          (Node.leaf ⟨1, "https://a", some "A", none, none, none, none, none⟩)
          (Node.leaf ⟨2, "https://b", some "", none, none, none, none, none⟩)))
        0).1 (Rect.mk 0 0 1000 800)
      = layout (Node.split Dir.vertical (mkRat 1 2)
          (Node.leaf ⟨1, "https://a", some "A", none, none, none, none, none⟩)
          (Node.leaf ⟨2, "https://b", some "", none, none, none, none, none⟩))
          (Rect.mk 0 0 1000 800) :=
  ⟨by decide,
   (serialize_restore_roundtrip (fun _ => 42) _ 0 (by decide)).1,
   (serialize_restore_roundtrip (fun _ => 42) _ 0 (by decide)).2.2
     (Rect.mk 0 0 1000 800)⟩

/-- Witness for C5 on a 1000 x 800 viewport. -/
theorem neighbor_antisym_two_pane_witness :
    getNeighbor (some (Node.split Dir.vertical (mkRat 1 2)
        (Node.leaf ⟨1, "u", none, none, none, none, none, none⟩)
        (Node.leaf ⟨2, "v", none, none, none, none, none, none⟩)))
      1000 800 1 Side.right = some 2
    ∧ getNeighbor (some (Node.split Dir.vertical (mkRat 1 2)
        (Node.leaf ⟨1, "u", none, none, none, none, none, none⟩)
        (Node.leaf ⟨2, "v", none, none, none, none, none, none⟩)))
      1000 800 2 Side.left = some 1 :=
  neighbor_antisym_two_pane 1000 800 (mkRat 1 2)
    ⟨1, "u", none, none, none, none, none, none⟩
    ⟨2, "v", none, none, none, none, none, none⟩
    (by decide) (by decide) (by decide)

/-- Witness for C6: the single-leaf full-viewport case at 1000 x 800. -/
theorem layout_leaf_gutters_witness :
    layout (Node.leaf ⟨1, "u", none, none, none, none, none, none⟩)
        (Rect.mk 0 0 1000 800)
      = [⟨1, "u", "", Rect.mk 0 0 1000 800, "", "", "", "", ""⟩]
    ∧ leafViewBounds 1000 800 (Rect.mk 0 0 1000 800) = Rect.mk 0 0 1000 800 :=
  layout_leaf_gutters.2.2 1000 800
    ⟨1, "u", none, none, none, none, none, none⟩ (by decide) (by decide)

/-- Witness for C7: j is suppressed while typing; meta+r runs regardless. -/
theorem typing_suppression_witness :
    dispatch false false true "" ⟨"j", false, false, false, false⟩
      = DispatchResult.typingSuppressed
    ∧ dispatch false false true "" ⟨"r", true, false, false, false⟩
      = DispatchResult.run (buildKeybindString ⟨"r", true, false, false, false⟩) :=
  ⟨(typing_suppression.1 ⟨"j", false, false, false, false⟩ ""
      rfl rfl rfl rfl (by decide)).1,
   typing_suppression.2 ⟨"r", true, false, false, false⟩ "" true
     (by decide) (by decide) (by decide)⟩

/-- Witness for C8 at the printable non-hint key 1. -/
theorem hint_abort_witness :
    dispatch false true false "ab" ⟨"1", false, false, false, false⟩
      = DispatchResult.biscuitAbort
    ∧ biscuitAfter (dispatch false true false "ab"
        ⟨"1", false, false, false, false⟩) (true, "ab") = (false, "")
    ∧ keyConsumed (dispatch false true false "ab"
        ⟨"1", false, false, false, false⟩) = true :=
  hint_abort false false "ab" ⟨"1", false, false, false, false⟩
    (by decide) (by decide) (by decide) rfl rfl rfl

/-- Witness for C9 on a two-pane window state: closing pane 1 prunes the
four maps but leaves its typingStates entry in place. -/
theorem close_prunes_but_not_typing_witness :
    1 ∉ (closeOp 1000 800
        (WinState.mk
          (some (Node.split Dir.vertical (mkRat 1 2)
            (Node.leaf ⟨1, "u", none, none, none, none, none, none⟩)
            (Node.leaf ⟨2, "v", none, none, none, none, none, none⟩)))
          [(1, ⟨1, "u", none, none, none, none, none, none⟩),
           (2, ⟨2, "v", none, none, none, none, none, none⟩)]
          [1, 2] [1, 2] [1, 2] [1, 2] [1, 2] (some 1) none false)
        1).searchKeys
    ∧ 1 ∉ (closeOp 1000 800
        (WinState.mk
          (some (Node.split Dir.vertical (mkRat 1 2)
            (Node.leaf ⟨1, "u", none, none, none, none, none, none⟩)
            (Node.leaf ⟨2, "v", none, none, none, none, none, none⟩)))
          [(1, ⟨1, "u", none, none, none, none, none, none⟩),
           (2, ⟨2, "v", none, none, none, none, none, none⟩)]
          [1, 2] [1, 2] [1, 2] [1, 2] [1, 2] (some 1) none false)
        1).overlayStateKeys
    ∧ 1 ∉ (closeOp 1000 800
        (WinState.mk
          (some (Node.split Dir.vertical (mkRat 1 2)
            (Node.leaf ⟨1, "u", none, none, none, none, none, none⟩)
            (Node.leaf ⟨2, "v", none, none, none, none, none, none⟩)))
          [(1, ⟨1, "u", none, none, none, none, none, none⟩),
           (2, ⟨2, "v", none, none, none, none, none, none⟩)]
          [1, 2] [1, 2] [1, 2] [1, 2] [1, 2] (some 1) none false)
        1).biscuitKeys
    ∧ 1 ∉ (closeOp 1000 800
        (WinState.mk
          (some (Node.split Dir.vertical (mkRat 1 2)
            (Node.leaf ⟨1, "u", none, none, none, none, none, none⟩)
            (Node.leaf ⟨2, "v", none, none, none, none, none, none⟩)))
          [(1, ⟨1, "u", none, none, none, none, none, none⟩),
           (2, ⟨2, "v", none, none, none, none, none, none⟩)]
          [1, 2] [1, 2] [1, 2] [1, 2] [1, 2] (some 1) none false)
        1).searchDebounceKeys
    ∧ (closeOp 1000 800
        (WinState.mk
          (some (Node.split Dir.vertical (mkRat 1 2)
            (Node.leaf ⟨1, "u", none, none, none, none, none, none⟩)
            (Node.leaf ⟨2, "v", none, none, none, none, none, none⟩)))
          [(1, ⟨1, "u", none, none, none, none, none, none⟩),
           (2, ⟨2, "v", none, none, none, none, none, none⟩)]
          [1, 2] [1, 2] [1, 2] [1, 2] [1, 2] (some 1) none false)
        1).typingKeys
      = (WinState.mk
          (some (Node.split Dir.vertical (mkRat 1 2)
            (Node.leaf ⟨1, "u", none, none, none, none, none, none⟩)
            (Node.leaf ⟨2, "v", none, none, none, none, none, none⟩)))
          [(1, ⟨1, "u", none, none, none, none, none, none⟩),
           (2, ⟨2, "v", none, none, none, none, none, none⟩)]
          [1, 2] [1, 2] [1, 2] [1, 2] [1, 2] (some 1) none false).typingKeys :=
  close_prunes_but_not_typing 1000 800 _ _ 1 rfl (by decide)

/-- Witness for C10 on the same two-pane window state. -/
theorem close_focuses_nearest_witness :
    ∃ na rb rc,
      (closeOp 1000 800
          (WinState.mk
            (some (Node.split Dir.vertical (mkRat 1 2)
              (Node.leaf ⟨1, "u", none, none, none, none, none, none⟩)
              (Node.leaf ⟨2, "v", none, none, none, none, none, none⟩)))
            [(1, ⟨1, "u", none, none, none, none, none, none⟩),
             (2, ⟨2, "v", none, none, none, none, none, none⟩)]
            [1, 2] [1, 2] [1, 2] [1, 2] [1, 2] (some 1) none false)
          1).lastActivePaneId = some na
      ∧ (closeOp 1000 800
          (WinState.mk
            (some (Node.split Dir.vertical (mkRat 1 2)
              (Node.leaf ⟨1, "u", none, none, none, none, none, none⟩)
              (Node.leaf ⟨2, "v", none, none, none, none, none, none⟩)))
            [(1, ⟨1, "u", none, none, none, none, none, none⟩),
             (2, ⟨2, "v", none, none, none, none, none, none⟩)]
            [1, 2] [1, 2] [1, 2] [1, 2] [1, 2] (some 1) none false)
          1).focused = some na
      ∧ na ≠ 1
      ∧ (na, rb) ∈ layoutPanes (Node.split Dir.vertical (mkRat 1 2)
            (Node.leaf ⟨1, "u", none, none, none, none, none, none⟩)
            (Node.leaf ⟨2, "v", none, none, none, none, none, none⟩)) 1000 800
      ∧ List.find? (fun p => p.1 == 1)
          (layoutPanes (Node.split Dir.vertical (mkRat 1 2)
            (Node.leaf ⟨1, "u", none, none, none, none, none, none⟩)
            (Node.leaf ⟨2, "v", none, none, none, none, none, none⟩)) 1000 800)
          = some (1, rc)
      ∧ ∀ q ∈ layoutPanes (Node.split Dir.vertical (mkRat 1 2)
            (Node.leaf ⟨1, "u", none, none, none, none, none, none⟩)
            (Node.leaf ⟨2, "v", none, none, none, none, none, none⟩)) 1000 800,
          q.1 ≠ 1 →
          dist2To (paneCenterX rc) (paneCenterY rc) rb
            ≤ dist2To (paneCenterX rc) (paneCenterY rc) q.2 :=
  close_focuses_nearest 1000 800
    (WinState.mk
      (some (Node.split Dir.vertical (mkRat 1 2)
        (Node.leaf ⟨1, "u", none, none, none, none, none, none⟩)
        (Node.leaf ⟨2, "v", none, none, none, none, none, none⟩)))
      [(1, ⟨1, "u", none, none, none, none, none, none⟩),
       (2, ⟨2, "v", none, none, none, none, none, none⟩)]
      [1, 2] [1, 2] [1, 2] [1, 2] [1, 2] (some 1) none false)
    Dir.vertical (mkRat 1 2)
    (Node.leaf ⟨1, "u", none, none, none, none, none, none⟩)
    (Node.leaf ⟨2, "v", none, none, none, none, none, none⟩)
    1 rfl (by decide) (by decide) (by decide)

end Brwsr
